import Mathlib

/-!
Verification development for the sensor-data ingestion / featurization /
inference pipeline of the repository.  The numeric pipeline is shallowly
embedded over exact rational arithmetic (`ℚ`): linear interpolation, the
coarse and fine resampling grids, zero padding, amplitude normalization,
chunk-id allocation, CSV structure validation and CSV reading are all
translated from the Python source (numpy `arange`/`linspace`, scipy
`interp1d`, the ingestion loop of
`backend/database_management/ingest_sensor_data.py`, and the utility
modules `backend/testing/utils.py`, `backend/training/utils.py`,
`backend/database_management/utils.py`).

Machine floats are modelled by exact rationals; Python `int()` applied to a
non-negative quantity is modelled by `Int.floor`/`Int.toNat` (the claims
only quantify over valid, non-negative processing parameters), and Python
`round` (banker's rounding) by `pyRound`.  Python strings are modelled as
`List Char` where their character content matters, and a CSV cell is
either a parsed number or a raw string tagged with the result Python
`float(...)` would give on it.
-/

namespace Capstone

/-! ### numpy / scipy primitives -/

/-- numpy `np.arange(start, stop, step)` for a positive step:
`max 0 ⌈(stop-start)/step⌉` points `start + k*step`. -/
def arange (start stop step : ℚ) : List ℚ :=
  if 0 < step then
    (List.range (Int.toNat ⌈(stop - start) / step⌉)).map
      (fun k : ℕ => start + (k : ℚ) * step)
  else []

/-- numpy `np.linspace(a, b, num, endpoint)`. -/
def linspace (a b : ℚ) (num : ℕ) (endpoint : Bool) : List ℚ :=
  if num = 0 then []
  else if endpoint then
    if num = 1 then [a]
    else (List.range num).map
      (fun k : ℕ => a + (k : ℚ) * ((b - a) / ((num : ℚ) - 1)))
  else (List.range num).map (fun k : ℕ => a + (k : ℚ) * ((b - a) / (num : ℚ)))

/-- Python 3 `round` (round half to even), as used by
`round(period / interval)` in the training interpolator. -/
def pyRound (q : ℚ) : ℤ :=
  let f := ⌊q⌋
  let frac := q - (f : ℚ)
  if frac < 1 / 2 then f
  else if 1 / 2 < frac then f + 1
  else if f % 2 = 0 then f else f + 1

/-- The straight line through `(t0, v0)` and `(t1, v1)` evaluated at `t`
(the elementary step of scipy's linear `interp1d`). -/
def lerp (t0 v0 t1 v1 t : ℚ) : ℚ :=
  v0 + (v1 - v0) * (t - t0) / (t1 - t0)

/-- scipy `interp1d(kind='linear')` out-of-bounds policy: either a constant
fill value (`fill_value=c` with `bounds_error=False`) or linear
extrapolation (`fill_value='extrapolate'`). -/
inductive FillPolicy
  | const (c : ℚ)
  | extrapolate
  deriving DecidableEq, Repr

/-- Walk the sorted node list and evaluate the linear interpolant on the
first segment whose right endpoint is `≥ t` (scipy's in-range behaviour). -/
def interpSegs : List (ℚ × ℚ) → ℚ → ℚ
  | [], _ => 0
  | [p], _ => p.2
  | p0 :: p1 :: rest, t =>
    if t ≤ p1.1 then lerp p0.1 p0.2 p1.1 p1.2 t else interpSegs (p1 :: rest) t

/-- Linear extrapolation past the right end: the line through the last two
nodes. -/
def extrapLast : List (ℚ × ℚ) → ℚ → ℚ
  | [], _ => 0
  | [p], _ => p.2
  | [p0, p1], t => lerp p0.1 p0.2 p1.1 p1.2 t
  | _ :: p1 :: p2 :: rest, t => extrapLast (p1 :: p2 :: rest) t

/-- Time of the last node (the node list is never empty at use sites). -/
def nodesLastTime (nodes : List (ℚ × ℚ)) : ℚ := (nodes.getLastD (0, 0)).1

/-- scipy `interp1d(time, values, kind='linear', bounds_error=False,
fill_value=...)` evaluated at one point `t`, for nodes sorted by time. -/
def interp1dEval (nodes : List (ℚ × ℚ)) (fill : FillPolicy) (t : ℚ) : ℚ :=
  match nodes with
  | [] => 0
  | p0 :: rest =>
    if t < p0.1 then
      match fill with
      | .const c => c
      | .extrapolate => interpSegs (p0 :: rest) t
    else if nodesLastTime (p0 :: rest) < t then
      match fill with
      | .const c => c
      | .extrapolate => extrapLast (p0 :: rest) t
    else interpSegs (p0 :: rest) t

/-- Map under `Option`, failing if any element fails (models pandas/numpy
operations that raise on any bad element, e.g. `astype(float64)`). -/
def omap (f : α → Option β) : List α → Option (List β)
  | [] => some []
  | a :: as =>
    match f a, omap f as with
    | some b, some bs => some (b :: bs)
    | _, _ => none

/-- `np.max(np.abs(data))` (the claims only use it on nonempty lists, where
the `0` seed is absorbed because every `|x|` is nonnegative). -/
def maxAbs (l : List ℚ) : ℚ := (l.map (fun x => |x|)).foldl max 0

/-! ### Constants from `backend/settings/constants.py` and
`backend/settings/configs.py` -/

/-- `MIN_DATA_POINTS = 2` (settings/constants.py). -/
def MIN_DATA_POINTS : ℕ := 2

/-- `CHUNK_COUNTER_START = 1` (settings/constants.py). -/
def CHUNK_COUNTER_START : ℕ := 1

/-- `DB_INTERPOLATION_FILL_VALUE = 0.0` with
`DB_INTERPOLATION_BOUNDS_ERROR = False` (settings/configs.py): constant
zero fill outside the node range. -/
def DB_INTERPOLATION_FILL_VALUE : FillPolicy := .const 0

/-- `INTERPOLATION_FILL_VALUE = DB_INTERPOLATION_FILL_VALUE`
(testing/constants.py re-export, used by the inference call site). -/
def INTERPOLATION_FILL_VALUE : FillPolicy := DB_INTERPOLATION_FILL_VALUE

/-- `TRAINING_INTERPOLATION_FILL_VALUE = 'extrapolate'`
(settings/constants.py lines 49-50, used by the training call site). -/
def TRAINING_INTERPOLATION_FILL_VALUE : FillPolicy := .extrapolate

/-- `TRAINING_TIME_PERIOD = 10` seconds (settings/constants.py). -/
def TRAINING_TIME_PERIOD : ℚ := 10

/-- `TRAINING_SAMPLING_RATE = 1600` Hz (settings/constants.py). -/
def TRAINING_SAMPLING_RATE : ℚ := 1600

/-! ### Stage 1: coarse interpolation (`interpolate_raw_data`,
backend/testing/utils.py) -/

/-- `np.mean(np.diff(time))`: for `n ≥ 2` samples this telescopes to
`(time[-1] - time[0]) / (n - 1)`; shorter lists never reach its use sites. -/
def meanDiff (time : List ℚ) : ℚ :=
  if 2 ≤ time.length then (time.getLastD 0 - time.headI) / ((time.length : ℚ) - 1)
  else 0

/-- Stage 1 (`interpolate_raw_data`): normalize time to start at 0, build
the coarse grid `np.arange(0, total_duration, time_interval)` and linearly
interpolate with fill value 0. -/
def interpolate_raw_data (time values : List ℚ) (time_interval : ℚ) :
    List ℚ × List ℚ :=
  let time_normalized := time.map (· - time.headI)
  let total_duration := time.getLastD 0 - time.headI
  let new_time := arange 0 total_duration time_interval
  let nodes := time_normalized.zip values
  (new_time, new_time.map (interp1dEval nodes INTERPOLATION_FILL_VALUE))

/-! ### Chunk splitting with padding (`split_into_chunks`,
backend/testing/utils.py) -/

/-- The error cases raised by `split_into_chunks` (`ValueError`s in the
source, distinguished here by their messages; `insufficientData` carries
the required and the actual duration reported by the message). -/
inductive SplitError
  | invalidTimeIntervals
  | invalidChunkSize
  | insufficientData (needed : ℚ) (actual : ℚ)
  deriving DecidableEq, Repr

/-- Start padding anchors of `split_into_chunks`:
`np.arange(0, padding_duration, time_interval)` (no minimum count). -/
def split_start_padding_time (padding_duration time_interval : ℚ) : List ℚ :=
  arange 0 padding_duration time_interval

/-- End padding anchors of `split_into_chunks`:
`np.arange(padding_duration + chunk_duration, total_duration + time_interval,
time_interval)`. -/
def split_end_padding_time (chunk_duration padding_duration time_interval : ℚ) :
    List ℚ :=
  arange (padding_duration + chunk_duration)
    (chunk_duration + 2 * padding_duration + time_interval) time_interval

/-- One padded chunk of `split_into_chunks`: start padding ++ time-shifted
data region ++ end padding, with zero values on both paddings. -/
def split_build_chunk (time_chunk values_chunk : List ℚ)
    (chunk_duration padding_duration time_interval : ℚ) : List ℚ × List ℚ :=
  let time_chunk_normalized := time_chunk.map (· - time_chunk.headI)
  let spt := split_start_padding_time padding_duration time_interval
  let data_time := time_chunk_normalized.map (· + padding_duration)
  let ept := split_end_padding_time chunk_duration padding_duration time_interval
  (spt ++ data_time ++ ept,
   List.replicate spt.length (0 : ℚ) ++ values_chunk ++
     List.replicate ept.length (0 : ℚ))

/-- `split_into_chunks` (backend/testing/utils.py): sampling rate from the
mean time delta, `samples_per_chunk = int(chunk_duration * sampling_rate)`,
`num_chunks = floor(len(time) / samples_per_chunk)`, then one padded chunk
per window (the `chunk_end > len(time)` guard of the source loop is kept). -/
def split_into_chunks (time values : List ℚ)
    (chunk_duration padding_duration time_interval : ℚ) :
    Except SplitError (List (List ℚ × List ℚ)) :=
  let dt := meanDiff time
  if dt ≤ 0 then .error .invalidTimeIntervals
  else
    let sampling_rate := 1 / dt
    let samples_per_chunk := Int.toNat ⌊chunk_duration * sampling_rate⌋
    if samples_per_chunk = 0 then .error .invalidChunkSize
    else
      let num_chunks := time.length / samples_per_chunk
      if num_chunks = 0 then
        .error (.insufficientData chunk_duration (time.getLastD 0 - time.headI))
      else
        .ok ((List.range num_chunks).filterMap (fun i =>
          let chunk_start := i * samples_per_chunk
          let chunk_end := chunk_start + samples_per_chunk
          if time.length < chunk_end then none
          else some (split_build_chunk
            ((time.drop chunk_start).take samples_per_chunk)
            ((values.drop chunk_start).take samples_per_chunk)
            chunk_duration padding_duration time_interval)))

/-! ### Stage 2: fine interpolation and normalization
(backend/testing/utils.py) -/

/-- Stage 2 (`interpolate_chunk_to_1600hz`): target grid
`np.arange(0, total_duration, 1/sampling_rate)` and linear interpolation of
the padded chunk with fill value 0. -/
def interpolate_chunk_to_1600hz (time values : List ℚ)
    (chunk_duration padding_duration sampling_rate : ℚ) : List ℚ × List ℚ :=
  let total_duration := chunk_duration + 2 * padding_duration
  let time_interval := 1 / sampling_rate
  let interpolated_time := arange 0 total_duration time_interval
  (interpolated_time,
   interpolated_time.map (interp1dEval (time.zip values) INTERPOLATION_FILL_VALUE))

/-- `normalize_data` (identical in backend/testing/utils.py and
backend/training/utils.py): divide by the maximum absolute value, or return
the input unchanged when that maximum is 0. -/
def normalize_data (data : List ℚ) : List ℚ :=
  let max_val := maxAbs data
  if max_val = 0 then data else data.map (· / max_val)

/-- `process_chunks` (backend/testing/utils.py): per chunk, Stage-2
interpolation, normalization, then unconditional truncation / zero padding
to `expected_samples = int(total_duration * sampling_rate)`. -/
def process_chunks (chunks : List (List ℚ × List ℚ))
    (chunk_duration padding_duration sampling_rate : ℚ) : List (List ℚ) :=
  let total_duration := chunk_duration + 2 * padding_duration
  let expected_samples := Int.toNat ⌊total_duration * sampling_rate⌋
  chunks.map (fun c =>
    let interpolated_values :=
      (interpolate_chunk_to_1600hz c.1 c.2 chunk_duration padding_duration
        sampling_rate).2
    let normalized := normalize_data interpolated_values
    if normalized.length = expected_samples then normalized
    else if expected_samples < normalized.length then
      normalized.take expected_samples
    else normalized ++ List.replicate (expected_samples - normalized.length) (0 : ℚ))

/-- The inference call site end to end
(backend/testing/inference.py: `interpolate_raw_data`, `split_into_chunks`,
`process_chunks`): raw series to normalized waveforms. -/
def inference_waveforms (time values : List ℚ)
    (time_interval chunk_duration padding_duration sampling_rate : ℚ) :
    Except SplitError (List (List ℚ)) :=
  let s1 := interpolate_raw_data time values time_interval
  (split_into_chunks s1.1 s1.2 chunk_duration padding_duration
    time_interval).map
    (fun cs => process_chunks cs chunk_duration padding_duration sampling_rate)

/-! ### Ingestion call site
(backend/database_management/ingest_sensor_data.py) -/

/-- `num_padding_points = max(2, int(padding_duration / time_interval))`
(ingest_sensor_data.py line 280). -/
def ingest_num_padding_points (padding_duration time_interval : ℚ) : ℕ :=
  max 2 (Int.toNat ⌊padding_duration / time_interval⌋)

/-- The coarse output grid of the ingestion loop:
`np.arange(0, total_duration + time_interval/2, time_interval)` filtered to
`<= total_duration`. -/
def ingest_grid (chunk_duration padding_duration time_interval : ℚ) : List ℚ :=
  (arange 0 (chunk_duration + 2 * padding_duration + time_interval / 2)
    time_interval).filter
    (fun t => t ≤ chunk_duration + 2 * padding_duration)

/-- One chunk of the ingestion loop: `linspace` paddings around the
time-shifted data region, then interpolation onto the coarse output grid
with fill value 0 (this is the value series written to the chunk file). -/
def ingest_chunk_waveform (time_chunk values_chunk : List ℚ)
    (chunk_duration padding_duration time_interval : ℚ) : List ℚ :=
  let total_duration := chunk_duration + 2 * padding_duration
  let time_chunk_normalized := time_chunk.map (· - time_chunk.headI)
  let npp := ingest_num_padding_points padding_duration time_interval
  let start_padding_time := linspace 0 padding_duration npp false
  let data_time := time_chunk_normalized.map (· + padding_duration)
  let end_padding_time :=
    linspace (padding_duration + chunk_duration) total_duration (npp + 1) true
  let time_with_padding := start_padding_time ++ data_time ++ end_padding_time
  let values_with_padding :=
    List.replicate npp (0 : ℚ) ++ values_chunk ++ List.replicate (npp + 1) (0 : ℚ)
  (ingest_grid chunk_duration padding_duration time_interval).map
    (interp1dEval (time_with_padding.zip values_with_padding)
      DB_INTERPOLATION_FILL_VALUE)

/-- Per-file outcome of the ingestion loop: the source prints a `[SKIP]`
log line and `continue`s on each guard, otherwise writes all chunk files. -/
inductive FileOutcome
  | skippedInsufficientPoints
  | skippedInvalidTimeIntervals
  | skippedInvalidChunkSize
  | skippedInsufficientData
  | processed (waveforms : List (List ℚ))
  deriving DecidableEq, Repr

/-- One iteration of the per-file loop of `ingest_sensor_data`
(lines 236-331): the guards in source order, then the per-chunk windowing
and interpolation. -/
def ingest_process_file (time values : List ℚ)
    (chunk_duration padding_duration time_interval : ℚ) : FileOutcome :=
  if time.length < MIN_DATA_POINTS then .skippedInsufficientPoints
  else
    let dt := meanDiff time
    if dt ≤ 0 then .skippedInvalidTimeIntervals
    else
      let sampling_rate := 1 / dt
      let samples_per_chunk := Int.toNat ⌊chunk_duration * sampling_rate⌋
      if samples_per_chunk = 0 then .skippedInvalidChunkSize
      else
        let num_chunks := time.length / samples_per_chunk
        if num_chunks = 0 then .skippedInsufficientData
        else
          .processed ((List.range num_chunks).filterMap (fun i =>
            let chunk_start := i * samples_per_chunk
            let chunk_end := chunk_start + samples_per_chunk
            if time.length < chunk_end then none
            else some (ingest_chunk_waveform
              ((time.drop chunk_start).take samples_per_chunk)
              ((values.drop chunk_start).take samples_per_chunk)
              chunk_duration padding_duration time_interval)))

/-- The batch loop over all discovered CSV files: each file is processed
independently inside a `try`, so one bad file never aborts the batch. -/
def ingest_batch (files : List (List ℚ × List ℚ))
    (chunk_duration padding_duration time_interval : ℚ) : List FileOutcome :=
  files.map (fun f =>
    ingest_process_file f.1 f.2 chunk_duration padding_duration time_interval)

/-- `generate_database_metadata` sets
`"source_files_count": len(csv_files)` over the full discovered file list
(backend/database_management/utils.py line 270). -/
def metadata_source_files_count (files : List (List ℚ × List ℚ)) : ℕ :=
  files.length

/-! ### Chunk ID allocation (ingest_sensor_data.py lines 201-228 and the
`chunk_counter += 1` of the write loop) -/

/-- Step 3 of `ingest_sensor_data`: the starting chunk counter.  `existing`
is the list of existing chunk files for the label, each with its parsed
numeric suffix (`none` when `int(...)` raised and the file was skipped). -/
def initial_chunk_counter (append_mode : Bool) (existing : List (Option ℕ)) : ℕ :=
  if append_mode ∧ existing ≠ [] then
    let existing_numbers := existing.filterMap id
    if existing_numbers ≠ [] then existing_numbers.foldl max 0 + 1
    else CHUNK_COUNTER_START
  else CHUNK_COUNTER_START

/-- IDs handed out by `n` successive `chunk_counter += 1` steps starting
from `start`. -/
def run_chunk_ids (start n : ℕ) : List ℕ := (List.range n).map (start + ·)

/-- IDs allocated across a whole ingestion run: each file writes its chunks
with consecutive counter values and hands the advanced counter to the next
file (`chunks_per_file` lists how many chunks each processed file wrote;
skipped files contribute 0). -/
def ingest_run_ids (start : ℕ) (chunks_per_file : List ℕ) : List ℕ :=
  (chunks_per_file.foldl
    (fun acc n => (acc.1 ++ run_chunk_ids acc.2 n, acc.2 + n)) ([], start)).1

/-! ### Training-time featurization call site
(backend/training/utils.py `interpolate_data`, backend/training/tools.py
`wav_generator`) -/

/-- `interpolate_data` for one series (backend/training/utils.py): grid
`np.arange(0, interval * round(period / interval), interval)` and linear
interpolation with `fill_value='extrapolate'`. -/
def interpolate_series (time_vals current_vals : List ℚ) (interval period : ℚ) :
    List ℚ × List ℚ :=
  let max_time := interval * (pyRound (period / interval) : ℚ)
  let new_time := arange 0 max_time interval
  (new_time,
   new_time.map (interp1dEval (time_vals.zip current_vals)
     TRAINING_INTERPOLATION_FILL_VALUE))

/-- The training featurization of one stored chunk (`wav_generator`
normalizes what `interpolate_data` produced; period and rate are the
training constants `TIME_PERIOD` and `SAMPLING_RATE`). -/
def training_featurize (time_vals current_vals : List ℚ) : List ℚ :=
  normalize_data
    (interpolate_series time_vals current_vals (1 / TRAINING_SAMPLING_RATE)
      TRAINING_TIME_PERIOD).2

/-! ### CSV structure detection and validation
(backend/database_management/utils.py, backend/testing/utils.py,
backend/testing/configs.py) -/

/-- The `CSVStructure` record (backend/testing/configs.py); the label is
modelled as its character list. -/
structure CSVStructure where
  skip_rows : ℤ
  time_column : ℤ
  values_column : ℤ
  values_label : List Char
  deriving DecidableEq, Repr

/-- An untrusted detector response after JSON parsing: each integer field
is `none` when Python `int(...)` would raise on it, and the label is
`none` when the value is not a string. -/
structure RawStructure where
  skip_rows : Option ℤ
  time_column : Option ℤ
  values_column : Option ℤ
  values_label : Option (List Char)
  deriving DecidableEq, Repr

/-- The `max(0, min(x, 100))` clamp of `_validate_structure`. -/
def clampInt (n : ℤ) : ℤ := max 0 (min n 100)

/-- The `skip_rows` block of `_validate_structure`: clamp, defaulting to 0
when `int(...)` raised. -/
def validate_skip_rows (field : Option ℤ) : ℤ :=
  match field with
  | some n => clampInt n
  | none => 0

/-- The `time_column` block of `_validate_structure`: clamp, defaulting to
0 when `int(...)` raised. -/
def validate_time_column (field : Option ℤ) : ℤ :=
  match field with
  | some n => clampInt n
  | none => 0

/-- The `values_column` block of `_validate_structure`: clamp, bump past
the time column on a collision, and on `int(...)` failure fall back to 1
(or 0 if the time column is already 1). -/
def validate_values_column (field : Option ℤ) (time_column : ℤ) : ℤ :=
  match field with
  | some n =>
    let v := clampInt n
    if v = time_column then time_column + 1 else v
  | none => if time_column ≠ 1 then 1 else 0

/-- The `values_label` block of `_validate_structure`: replace a
non-string or blank label by `"Value"`, then truncate to 100 characters. -/
def validate_values_label (field : Option (List Char)) : List Char :=
  match field with
  | some l =>
    (if l.all Char.isWhitespace then ['V', 'a', 'l', 'u', 'e'] else l).take 100
  | none => (['V', 'a', 'l', 'u', 'e'] : List Char).take 100

/-- `_validate_structure` (backend/database_management/utils.py lines
89-124): clamp the integer fields into `[0, 100]`, force
`values_column ≠ time_column`, replace a non-string / blank label by
`"Value"` and truncate to 100 characters. -/
def validate_structure (s : RawStructure) : CSVStructure :=
  ⟨validate_skip_rows s.skip_rows,
   validate_time_column s.time_column,
   validate_values_column s.values_column (validate_time_column s.time_column),
   validate_values_label s.values_label⟩

/-- `detect_csv_structure` of the testing module (backend/testing/utils.py
lines 119-134): after checking that the four keys are present in the GPT
response, the `CSVStructure` is built directly from the parsed values with
no clamping, no collision adjustment and no label sanitization. -/
def detect_csv_structure_testing (s : RawStructure) : Option CSVStructure :=
  match s.skip_rows, s.time_column, s.values_column, s.values_label with
  | some a, some b, some c, some l => some ⟨a, b, c, l⟩
  | _, _, _, _ => none

/-! ### CSV reading (`read_raw_csv`, backend/testing/utils.py lines
150-191) -/

/-- One CSV cell as pandas sees it with `header=None`: either a parsed
number, or a raw string carrying the value Python `float(...)` would
produce on it (`none` when `float` raises `ValueError`). -/
inductive Cell
  | num (q : ℚ)
  | str (parsed : Option ℚ)
  deriving DecidableEq, Repr

/-- The header test of `read_raw_csv`: the cell is a string and
`float(...)` on it raises. -/
def cellIsHeaderish : Cell → Bool
  | .str none => true
  | _ => false

/-- `astype(np.float64)` on one cell. -/
def cellToFloat : Cell → Option ℚ
  | .num q => some q
  | .str p => p

/-- Errors surfaced by `read_raw_csv` (`ValueError`s and pandas errors). -/
inductive ReadError
  | headerCellMissing
  | insufficientDataPoints
  | columnMissing
  | parseFailure
  deriving DecidableEq, Repr

/-- The part of `read_raw_csv` after the optional header-row drop: the
`MIN_DATA_POINTS` check, then column extraction and `astype(np.float64)`
(the frame is rectangular as produced by `pd.read_csv`). -/
def validate_and_extract (rows : List (List Cell)) (s : CSVStructure) :
    Except ReadError (List ℚ × List ℚ) :=
  if rows.length < MIN_DATA_POINTS then .error .insufficientDataPoints
  else
    match omap (fun r => r.get? s.time_column.toNat) rows,
      omap (fun r => r.get? s.values_column.toNat) rows with
    | some tcol, some vcol =>
      match omap cellToFloat tcol, omap cellToFloat vcol with
      | some t, some v => .ok (t, v)
      | _, _ => .error .parseFailure
    | _, _ => .error .columnMissing

/-- `read_raw_csv` (backend/testing/utils.py): skip `skip_rows` rows, drop
one more row when the first remaining row's time cell is a string that
does not parse as a float, then validate and extract.  (Negative pandas
indices are not modelled; the claims quantify over non-negative
structures.) -/
def read_raw_csv (rows : List (List Cell)) (s : CSVStructure) :
    Except ReadError (List ℚ × List ℚ) :=
  let rows1 := rows.drop s.skip_rows.toNat
  match rows1.head?.bind (fun r => r.get? s.time_column.toNat) with
  | none => .error .headerCellMissing
  | some c =>
    validate_and_extract (if cellIsHeaderish c then rows1.drop 1 else rows1) s

end Capstone

namespace Capstone

/-! ### Helper lemmas -/

lemma arange_eval (start stop step : ℚ) (n : ℕ) (h1 : 0 < step)
    (h2 : ⌈(stop - start) / step⌉ = (n : ℤ)) :
    arange start stop step
      = (List.range n).map (fun k : ℕ => start + (k : ℚ) * step) := by
  simp [arange, h1, h2]

lemma arange_length (start stop step : ℚ) (h1 : 0 < step) :
    (arange start stop step).length = Int.toNat ⌈(stop - start) / step⌉ := by
  unfold arange
  rw [if_pos h1, List.length_map, List.length_range]

lemma le_foldl_max (l : List ℚ) (a : ℚ) : a ≤ l.foldl max a := by
  induction l generalizing a with
  | nil => simp
  | cons b l ih => exact le_trans (le_max_left a b) (ih (max a b))

lemma mem_le_foldl_max (l : List ℚ) (a x : ℚ) (hx : x ∈ l) : x ≤ l.foldl max a := by
  induction l generalizing a with
  | nil => simp at hx
  | cons b l ih =>
    rw [List.foldl_cons]
    rcases List.mem_cons.1 hx with h | h
    · subst h; exact le_trans (le_max_right a x) (le_foldl_max l (max a x))
    · exact ih (max a b) h

lemma foldl_max_mem (l : List ℚ) (a : ℚ) : l.foldl max a = a ∨ l.foldl max a ∈ l := by
  induction l generalizing a with
  | nil => left; rfl
  | cons b l ih =>
    rw [List.foldl_cons]
    rcases ih (max a b) with h | h
    · rw [h]
      rcases max_cases a b with ⟨hm, _⟩ | ⟨hm, _⟩
      · left; exact hm
      · right; rw [hm]; exact List.mem_cons_self b l
    · right; exact List.mem_cons_of_mem _ h

lemma maxAbs_nonneg (l : List ℚ) : 0 ≤ maxAbs l := le_foldl_max _ _

lemma abs_le_maxAbs (l : List ℚ) (x : ℚ) (hx : x ∈ l) : |x| ≤ maxAbs l :=
  mem_le_foldl_max _ _ _ (List.mem_map_of_mem _ hx)

lemma maxAbs_eq_zero_of_all_zero (l : List ℚ) (h : ∀ x ∈ l, x = 0) :
    maxAbs l = 0 := by
  rcases foldl_max_mem (l.map (fun x => |x|)) 0 with h0 | h0
  · exact h0
  · rcases List.mem_map.1 h0 with ⟨x, hx, hax⟩
    unfold maxAbs
    rw [← hax, h x hx, abs_zero]

lemma maxAbs_pos (l : List ℚ) (x : ℚ) (hx : x ∈ l) (hx0 : x ≠ 0) :
    0 < maxAbs l :=
  lt_of_lt_of_le (abs_pos.2 hx0) (abs_le_maxAbs l x hx)

lemma foldl_max_div (l : List ℚ) (a m : ℚ) (hm : 0 < m) :
    (l.map (· / m)).foldl max (a / m) = (l.foldl max a) / m := by
  induction l generalizing a with
  | nil => rfl
  | cons b l ih =>
    simp only [List.map_cons, List.foldl_cons]
    rw [max_div_div_right (le_of_lt hm), ih]

lemma maxAbs_map_div (l : List ℚ) (m : ℚ) (hm : 0 < m) :
    maxAbs (l.map (· / m)) = maxAbs l / m := by
  unfold maxAbs
  have hmap : (l.map (· / m)).map (fun x => |x|) = (l.map (fun x => |x|)).map (· / m) := by
    simp only [List.map_map]
    refine List.map_congr_left (fun x _ => ?_)
    simp [abs_div, abs_of_pos hm]
  rw [hmap]
  have hdiv := foldl_max_div (l.map fun x => |x|) 0 m hm
  rw [zero_div] at hdiv
  rw [hdiv]

lemma omap_length {α β : Type} (f : α → Option β) (l : List α) (l' : List β)
    (h : omap f l = some l') : l'.length = l.length := by
  induction l generalizing l' with
  | nil => simp [omap] at h; simp [← h]
  | cons a as ih =>
    unfold omap at h
    rcases hfa : f a with _ | b
    · rw [hfa] at h; simp at h
    · rw [hfa] at h
      rcases hrec : omap f as with _ | bs
      · rw [hrec] at h; simp at h
      · rw [hrec] at h
        simp only [Option.some.injEq] at h
        rw [← h]
        simp [ih bs hrec]

lemma run_chunk_ids_append (s n m : ℕ) :
    run_chunk_ids s n ++ run_chunk_ids (s + n) m = run_chunk_ids s (n + m) := by
  unfold run_chunk_ids
  rw [List.range_add, List.map_append, List.map_map]
  congr 1
  refine List.map_congr_left (fun k _ => ?_)
  simp [Function.comp]
  omega

lemma ingest_run_ids_eq (start : ℕ) (ns : List ℕ) :
    ingest_run_ids start ns = run_chunk_ids start ns.sum := by
  have key : ∀ (ns : List ℕ) (acc : List ℕ) (s : ℕ),
      (ns.foldl (fun acc n => (acc.1 ++ run_chunk_ids acc.2 n, acc.2 + n)) (acc, s)).1
        = acc ++ run_chunk_ids s ns.sum := by
    intro ns
    induction ns with
    | nil => intro acc s; simp [run_chunk_ids]
    | cons n rest ih =>
      intro acc s
      simp only [List.foldl_cons, List.sum_cons]
      rw [ih]
      rw [List.append_assoc, run_chunk_ids_append]
  unfold ingest_run_ids
  rw [key]
  simp

lemma run_chunk_ids_nodup (s n : ℕ) : (run_chunk_ids s n).Nodup := by
  unfold run_chunk_ids
  exact List.Nodup.map (fun a b h => by omega) (List.nodup_range n)

lemma run_chunk_ids_get (s n j : ℕ) (hj : j < n) :
    (run_chunk_ids s n).get? j = some (s + j) := by
  unfold run_chunk_ids
  rw [List.get?_map, List.get?_range hj]
  rfl

/-! ### Claim C4 -/

/-- Claim C4: `normalize_data` divides its input elementwise by
`max(abs(input))`; for every nonempty input that is not all-zero the
maximum absolute value of the output is exactly 1, and for an all-zero
input the data is returned unchanged (no division by zero occurs). -/
theorem C4_normalize_correct (data : List ℚ) :
    ((∃ x ∈ data, x ≠ 0) →
      normalize_data data = data.map (· / maxAbs data) ∧
        maxAbs (normalize_data data) = 1) ∧
    ((∀ x ∈ data, x = 0) → normalize_data data = data) := by
  constructor
  · rintro ⟨x, hx, hx0⟩
    have hpos : 0 < maxAbs data := maxAbs_pos data x hx hx0
    have hne : maxAbs data ≠ 0 := ne_of_gt hpos
    have heq : normalize_data data = data.map (· / maxAbs data) := by
      unfold normalize_data
      simp [hne]
    refine ⟨heq, ?_⟩
    rw [heq, maxAbs_map_div data _ hpos, div_self hne]
  · intro hall
    unfold normalize_data
    simp [maxAbs_eq_zero_of_all_zero data hall]

/-- Witness for C4 at the concrete input `[3, -6]` (and the all-zero case
at `[0, 0]`). -/
theorem C4_normalize_correct_witness :
    maxAbs (normalize_data [3, -6]) = 1 ∧ normalize_data [0, 0] = [0, 0] :=
  ⟨((C4_normalize_correct [3, -6]).1 ⟨3, by norm_num, by norm_num⟩).2,
   (C4_normalize_correct [0, 0]).2 (by intro x hx; simpa using hx)⟩

/-! ### Evaluation toolkit for concrete floor / ceil arguments -/

lemma headI_mem_of_ne_nil {α : Type} [Inhabited α] (l : List α) (h : l ≠ []) :
    l.headI ∈ l := by
  cases l with
  | nil => exact absurd rfl h
  | cons a as => exact List.mem_cons_self a as

lemma qfloor_of (q : ℚ) (n : ℤ) (hlo : (n : ℚ) ≤ q) (hhi : q < (n : ℚ) + 1) :
    ⌊q⌋ = n := by
  rw [Int.floor_eq_iff]
  exact ⟨hlo, hhi⟩

lemma qceil_of (q : ℚ) (n : ℤ) (hlo : (n : ℚ) - 1 < q) (hhi : q ≤ (n : ℚ)) :
    ⌈q⌉ = n := by
  rw [Int.ceil_eq_iff]
  exact ⟨hlo, hhi⟩

lemma qfloor_toNat (q : ℚ) (n : ℕ) (hlo : (n : ℚ) ≤ q) (hhi : q < (n : ℚ) + 1) :
    Int.toNat ⌊q⌋ = n := by
  rw [qfloor_of q n (by push_cast at hlo ⊢; exact hlo) (by push_cast at hhi ⊢; exact hhi)]
  exact Int.toNat_natCast n

lemma arange_eval_pos (start stop step : ℚ) (n : ℕ) (h1 : 0 < step) (hn : 0 < n)
    (hlo : start + ((n : ℚ) - 1) * step < stop) (hhi : stop ≤ start + (n : ℚ) * step) :
    arange start stop step
      = (List.range n).map (fun k : ℕ => start + (k : ℚ) * step) := by
  refine arange_eval start stop step n h1 (qceil_of _ _ ?_ ?_)
  · rw [lt_div_iff h1]
    push_cast
    linarith
  · rw [div_le_iff₀ h1]
    push_cast
    linarith

lemma arange_eval_nil (start stop step : ℚ) (h1 : 0 < step) (h2 : stop ≤ start) :
    arange start stop step = [] := by
  have hc : ⌈(stop - start) / step⌉ ≤ 0 := by
    refine Int.ceil_le.2 ?_
    push_cast
    exact div_nonpos_of_nonpos_of_nonneg (by linarith) (le_of_lt h1)
  unfold arange
  rw [if_pos h1]
  have : Int.toNat ⌈(stop - start) / step⌉ = 0 := Int.toNat_of_nonpos hc
  rw [this]
  rfl

/-! ### Claim C5 -/

/-- Claim C5: in an append-mode ingestion run the starting chunk id is
`max(existing parsed suffixes) + 1`, or `CHUNK_COUNTER_START = 1` when no
suffix parses (or no file exists); across the whole run the allocated ids
are the consecutive block starting there, pairwise distinct and gap-free. -/
theorem C5_chunk_id_allocation (existing : List (Option ℕ)) (ns : List ℕ) :
    initial_chunk_counter true existing
        = (if existing.filterMap id = [] then 1
           else (existing.filterMap id).foldl max 0 + 1) ∧
    ingest_run_ids (initial_chunk_counter true existing) ns
        = run_chunk_ids (initial_chunk_counter true existing) ns.sum ∧
    (ingest_run_ids (initial_chunk_counter true existing) ns).Nodup ∧
    ∀ j, j < ns.sum →
      (ingest_run_ids (initial_chunk_counter true existing) ns).get? j
        = some (initial_chunk_counter true existing + j) := by
  refine ⟨?_, ingest_run_ids_eq _ ns, ?_, ?_⟩
  · unfold initial_chunk_counter
    rcases eq_or_ne existing [] with he | he
    · subst he
      simp [CHUNK_COUNTER_START]
    · rcases eq_or_ne (existing.filterMap id) [] with hf | hf
      · simp [he, hf, CHUNK_COUNTER_START]
      · simp [he, hf]
  · rw [ingest_run_ids_eq]
    exact run_chunk_ids_nodup _ _
  · intro j hj
    rw [ingest_run_ids_eq]
    exact run_chunk_ids_get _ _ j hj

/-- Witness for C5: three existing files with suffixes `3`, unparseable,
`7`; three source files contributing 2, 0 and 1 chunks.  The run starts at
id 8 and allocates `[8, 9, 10]`. -/
theorem C5_chunk_id_allocation_witness :
    initial_chunk_counter true [some 3, none, some 7] = 8 ∧
    (ingest_run_ids 8 [2, 0, 1]).Nodup ∧
    (ingest_run_ids 8 [2, 0, 1]).get? 2 = some 10 := by
  have h := C5_chunk_id_allocation [some 3, none, some 7] [2, 0, 1]
  have hstart : initial_chunk_counter true [some 3, none, some 7] = 8 := by
    rw [h.1]
    decide
  refine ⟨hstart, ?_, ?_⟩
  · have := h.2.2.1
    rw [hstart] at this
    exact this
  · have := h.2.2.2 2 (by decide)
    rw [hstart] at this
    exact this

/-! ### Claim C6 -/

/-- Claim C6: when the coarse series yields zero chunks, `split_into_chunks`
raises the insufficient-data error carrying the required duration
(`chunk_duration`) and the actual duration (`time[-1] - time[0]`); and it
never returns an empty chunk list. -/
theorem C6_zero_chunks_is_error (time values : List ℚ) (cd pd ti : ℚ) :
    (∀ l, split_into_chunks time values cd pd ti = .ok l → l ≠ []) ∧
    (0 < meanDiff time →
      Int.toNat ⌊cd * (1 / meanDiff time)⌋ ≠ 0 →
      time.length / Int.toNat ⌊cd * (1 / meanDiff time)⌋ = 0 →
      split_into_chunks time values cd pd ti
        = .error (.insufficientData cd (time.getLastD 0 - time.headI))) := by
  constructor
  · intro l hl hnil
    subst hnil
    simp only [split_into_chunks] at hl
    split_ifs at hl with h1 h2 h3
    set spc := Int.toNat ⌊cd * (1 / meanDiff time)⌋ with hspc
    set nc := time.length / spc with hnc
    have hok : (List.range nc).filterMap (fun i =>
        if time.length < i * spc + spc then none
        else some (split_build_chunk
          ((time.drop (i * spc)).take spc)
          ((values.drop (i * spc)).take spc) cd pd ti)) = [] := by
      exact Except.ok.inj hl
    have hmem : split_build_chunk ((time.drop (0 * spc)).take spc)
        ((values.drop (0 * spc)).take spc) cd pd ti ∈
        (List.range nc).filterMap (fun i =>
          if time.length < i * spc + spc then none
          else some (split_build_chunk
            ((time.drop (i * spc)).take spc)
            ((values.drop (i * spc)).take spc) cd pd ti)) := by
      refine List.mem_filterMap.2 ⟨0, List.mem_range.2 (Nat.pos_of_ne_zero h3), ?_⟩
      have hle : spc ≤ time.length := by
        by_contra hlt
        exact h3 (Nat.div_eq_of_lt (Nat.lt_of_not_le hlt))
      rw [if_neg]
      simp only [Nat.zero_mul, Nat.zero_add]
      exact Nat.not_lt.2 hle
    rw [hok] at hmem
    exact List.not_mem_nil _ hmem
  · intro hdt hspc hnc
    unfold split_into_chunks
    rw [if_neg (not_le.2 hdt), if_neg hspc, if_pos hnc]

/-- Witness for C6: `time = [0, 1]` (one second of data) with a required
chunk duration of 5 seconds gives zero chunks and the insufficient-data
error reporting 5 needed versus 1 actual. -/
theorem C6_zero_chunks_is_error_witness :
    split_into_chunks [0, 1] [0, 0] 5 1 1
      = .error (.insufficientData 5 1) := by
  have hmd : meanDiff [0, 1] = 1 := by
    unfold meanDiff
    norm_num
  have h := (C6_zero_chunks_is_error [0, 1] [0, 0] 5 1 1).2
  rw [hmd] at h
  have hfl : Int.toNat ⌊(5 : ℚ) * (1 / 1)⌋ = 5 := by
    rw [qfloor_toNat ((5 : ℚ) * (1 / 1)) 5 (by norm_num) (by norm_num)]
  rw [hfl] at h
  have hres := h (by norm_num) (by norm_num) (by norm_num)
  simpa using hres

/-! ### Claim C2 -/

/-- Amended claim C2: for valid parameters, every waveform returned by
`process_chunks` has exactly `int(total_duration * sampling_rate)` samples
(Python `int()` truncation, i.e. the floor, not `round`); when the
interpolated and normalized result has a different count it is
unconditionally truncated or zero-padded to that exact length. -/
theorem C2_exact_output_length (chunks : List (List ℚ × List ℚ))
    (cd pd rate : ℚ) (w : List ℚ)
    (hw : w ∈ process_chunks chunks cd pd rate)
    (hvalid : 0 ≤ (cd + 2 * pd) * rate) :
    w.length = Int.toNat ⌊(cd + 2 * pd) * rate⌋ := by
  unfold process_chunks at hw
  rcases List.mem_map.1 hw with ⟨c, _, hc⟩
  by_cases h1 : (normalize_data
        (interpolate_chunk_to_1600hz c.1 c.2 cd pd rate).2).length
      = Int.toNat ⌊(cd + 2 * pd) * rate⌋
  · rw [if_pos h1] at hc
    rw [← hc, h1]
  · rw [if_neg h1] at hc
    by_cases h2 : Int.toNat ⌊(cd + 2 * pd) * rate⌋
        < (normalize_data (interpolate_chunk_to_1600hz c.1 c.2 cd pd rate).2).length
    · rw [if_pos h2] at hc
      rw [← hc, List.length_take]
      omega
    · rw [if_neg h2] at hc
      rw [← hc, List.length_append, List.length_replicate]
      omega

/-- Witness for C2 (amended): with `chunk_duration = 1/4`,
`padding_duration = 1/8` and `target_rate = 3`, every output waveform has
`int(0.5 * 3) = 1` sample. -/
theorem C2_exact_output_length_witness :
    ((process_chunks [([0, 1/2], [0, 0])] (1/4) (1/8) 3).headI).length = 1 := by
  have hmem : (process_chunks [([0, 1/2], [0, 0])] (1/4) (1/8) 3).headI
      ∈ process_chunks [([0, 1/2], [0, 0])] (1/4) (1/8) 3 := by
    apply headI_mem_of_ne_nil
    unfold process_chunks
    simp
  have h := C2_exact_output_length [([0, 1/2], [0, 0])] (1/4) (1/8) 3 _ hmem
    (by norm_num)
  rw [h, qfloor_toNat (((1 : ℚ)/4 + 2 * (1/8)) * 3) 1 (by norm_num) (by norm_num)]

/-- Counterexample for C2 as stated: at the same valid configuration the
claimed length `round((chunk_duration + 2*padding_duration) * target_rate)`
is `round(1.5) = 2`, but the pipeline produces waveforms of length
`int(1.5) = 1`. -/
theorem C2_round_length_counterexample :
    ((process_chunks [([0, 1/2], [0, 0])] (1/4) (1/8) 3).headI).length = 1 ∧
    pyRound (((1 : ℚ)/4 + 2 * (1/8)) * 3) = 2 ∧ (1 : ℤ) ≠ 2 := by
  refine ⟨C2_exact_output_length_witness, ?_, by decide⟩
  unfold pyRound
  rw [qfloor_of (((1 : ℚ)/4 + 2 * (1/8)) * 3) 1 (by norm_num) (by norm_num)]
  norm_num

/-! ### Claim C9 -/

lemma linspace_length (a b : ℚ) (num : ℕ) (endpoint : Bool) :
    (linspace a b num endpoint).length = num := by
  unfold linspace
  rcases Nat.eq_zero_or_pos num with h0 | hpos
  · simp [h0]
  · rw [if_neg (Nat.pos_iff_ne_zero.1 hpos)]
    cases endpoint with
    | false => simp
    | true =>
      rcases eq_or_ne num 1 with h1 | h1
      · simp [h1]
      · simp [h1]

/-- Amended claim C9: the ingestion component synthesizes
`max(2, int(padding_duration / time_interval))` zero anchors for the start
padding region and one more for the end padding region, always at least 2;
the inference splitter (`split_into_chunks`) instead uses
`np.arange(0, padding_duration, time_interval)` anchors with no minimum. -/
theorem C9_ingest_padding_point_floor (padding_duration time_interval : ℚ)
    (chunk_duration : ℚ) :
    2 ≤ ingest_num_padding_points padding_duration time_interval ∧
    ingest_num_padding_points padding_duration time_interval
      = max 2 (Int.toNat ⌊padding_duration / time_interval⌋) ∧
    (linspace 0 padding_duration
        (ingest_num_padding_points padding_duration time_interval) false).length
      = ingest_num_padding_points padding_duration time_interval ∧
    (linspace (padding_duration + chunk_duration)
        (chunk_duration + 2 * padding_duration)
        (ingest_num_padding_points padding_duration time_interval + 1) true).length
      = ingest_num_padding_points padding_duration time_interval + 1 :=
  ⟨le_max_left _ _, rfl, linspace_length _ _ _ _, linspace_length _ _ _ _⟩

/-- Counterexample for C9 as stated: with `padding_duration = 1` and
`time_interval = 1` the splitter of the inference path synthesizes exactly
one zero anchor for the start padding region (fewer than 2): the padded
chunk built from the data window `[0, 1]` is
`([0] ++ [1, 2] ++ [3, 4], [0] ++ [1, 2] ++ [0, 0])`. -/
theorem C9_split_padding_counterexample :
    (split_start_padding_time 1 1).length = 1 ∧
    ¬ 2 ≤ (split_start_padding_time 1 1).length ∧
    split_build_chunk [0, 1] [1, 2] 2 1 1 = ([0, 1, 2, 3, 4], [0, 1, 2, 0, 0]) := by
  have hsp : split_start_padding_time 1 1 = [0] := by
    unfold split_start_padding_time
    rw [arange_eval_pos 0 1 1 1 (by norm_num) (by norm_num) (by norm_num) (by norm_num)]
    simp [List.range_succ]
  have hep : split_end_padding_time 2 1 1 = [3, 4] := by
    unfold split_end_padding_time
    rw [arange_eval_pos (1 + 2) (2 + 2 * 1 + 1) 1 2 (by norm_num) (by norm_num)
      (by norm_num) (by norm_num)]
    simp [List.range_succ]
    norm_num
  refine ⟨by rw [hsp]; rfl, by rw [hsp]; decide, ?_⟩
  unfold split_build_chunk
  rw [hsp, hep]
  simp
  norm_num

/-! ### Claim C8 -/

lemma validate_skip_rows_bounds (f : Option ℤ) :
    0 ≤ validate_skip_rows f ∧ validate_skip_rows f ≤ 100 := by
  rcases f with _ | n
  · simp [validate_skip_rows]
  · simp only [validate_skip_rows, clampInt]
    omega

lemma validate_time_column_bounds (f : Option ℤ) :
    0 ≤ validate_time_column f ∧ validate_time_column f ≤ 100 := by
  rcases f with _ | n
  · simp [validate_time_column]
  · simp only [validate_time_column, clampInt]
    omega

lemma validate_values_column_ok (f : Option ℤ) (t : ℤ) (ht0 : 0 ≤ t)
    (ht1 : t ≤ 100) :
    0 ≤ validate_values_column f t ∧ validate_values_column f t ≤ 101 ∧
      validate_values_column f t ≠ t := by
  rcases f with _ | n
  · simp only [validate_values_column]
    split_ifs with h
    · omega
    · omega
  · simp only [validate_values_column, clampInt]
    split_ifs with h
    · omega
    · omega

lemma validate_values_label_ok (f : Option (List Char)) :
    validate_values_label f ≠ [] ∧ (validate_values_label f).length ≤ 100 := by
  rcases f with _ | l
  · refine ⟨by decide, by decide⟩
  · simp only [validate_values_label]
    split_ifs with h
    · refine ⟨by decide, by decide⟩
    · have hl : l ≠ [] := by
        intro hnil
        subst hnil
        exact h (by decide)
      constructor
      · intro htake
        have hlen := congrArg List.length htake
        rw [List.length_take] at hlen
        simp at hlen
        exact hl hlen
      · rw [List.length_take]
        omega

/-- Amended claim C8: every `CSVStructure` produced by the validation layer
`_validate_structure` (applied on the database module's GPT detector path)
has clamped non-negative bounded integer fields (`skip_rows`,
`time_column` in `[0, 100]`, `values_column` in `[0, 101]`), a
`values_column` different from `time_column` (force-adjusted on
collision), and a non-empty label of at most 100 characters (defaulted
when blank or not a string).  The testing-module detector and the fallback
path return structures without this validation. -/
theorem C8_validate_structure_bounds (s : RawStructure) :
    0 ≤ (validate_structure s).skip_rows ∧
    (validate_structure s).skip_rows ≤ 100 ∧
    0 ≤ (validate_structure s).time_column ∧
    (validate_structure s).time_column ≤ 100 ∧
    0 ≤ (validate_structure s).values_column ∧
    (validate_structure s).values_column ≤ 101 ∧
    (validate_structure s).values_column ≠ (validate_structure s).time_column ∧
    (validate_structure s).values_label ≠ [] ∧
    (validate_structure s).values_label.length ≤ 100 := by
  have h1 := validate_skip_rows_bounds s.skip_rows
  have h2 := validate_time_column_bounds s.time_column
  have h3 := validate_values_column_ok s.values_column
    (validate_time_column s.time_column) h2.1 h2.2
  have h4 := validate_values_label_ok s.values_label
  exact ⟨h1.1, h1.2, h2.1, h2.2, h3.1, h3.2.1, h3.2.2, h4.1, h4.2⟩

/-- Counterexample for C8 as stated: the testing-module detector
(`detect_csv_structure` in backend/testing/utils.py) builds the structure
directly from the parsed GPT response; a response with
`time_column = values_column = 0` and an empty label is returned with the
collision and the empty label intact. -/
theorem C8_testing_no_validation_counterexample :
    detect_csv_structure_testing ⟨some 0, some 0, some 0, some []⟩
      = some ⟨0, 0, 0, []⟩ ∧
    (CSVStructure.mk 0 0 0 []).values_column
      = (CSVStructure.mk 0 0 0 []).time_column ∧
    (CSVStructure.mk 0 0 0 []).values_label = [] :=
  ⟨rfl, rfl, rfl⟩

/-! ### Claim C7 -/

/-- Amended claim C7: a source file with fewer than `MIN_DATA_POINTS = 2`
data points is skipped with a `[SKIP]` log outcome, every sibling file in
the batch is still processed independently (the batch never aborts and has
one outcome per file), but the metadata's `source_files_count` is
`len(csv_files)`, the number of discovered files, so the skipped file IS
counted in it. -/
theorem C7_skip_short_file (files : List (List ℚ × List ℚ)) (cd pd ti : ℚ)
    (i : ℕ) (f : List ℚ × List ℚ) (hi : files.get? i = some f)
    (hbad : f.1.length < MIN_DATA_POINTS) :
    (ingest_batch files cd pd ti).get? i
      = some FileOutcome.skippedInsufficientPoints ∧
    (ingest_batch files cd pd ti).length = files.length ∧
    (∀ j g, files.get? j = some g →
      (ingest_batch files cd pd ti).get? j
        = some (ingest_process_file g.1 g.2 cd pd ti)) ∧
    metadata_source_files_count files = files.length := by
  have hbatch : ∀ j g, files.get? j = some g →
      (ingest_batch files cd pd ti).get? j
        = some (ingest_process_file g.1 g.2 cd pd ti) := by
    intro j g hj
    unfold ingest_batch
    rw [List.get?_map, hj]
    rfl
  refine ⟨?_, ?_, hbatch, rfl⟩
  · rw [hbatch i f hi]
    unfold ingest_process_file
    rw [if_pos hbad]
  · unfold ingest_batch
    exact List.length_map _ _

/-- Witness for C7 (amended): the batch `[([0], [0]), ([0, 1], [5, 6])]`
skips its one-point first file, still processes the second file into
chunks, and reports `source_files_count = 2`. -/
theorem C7_skip_short_file_witness :
    (ingest_batch [([0], [0]), ([0, 1], [5, 6])] 1 1 1).get? 0
      = some FileOutcome.skippedInsufficientPoints ∧
    metadata_source_files_count [([0], [0]), ([0, 1], [5, 6])] = 2 := by
  have h := C7_skip_short_file [([0], [0]), ([0, 1], [5, 6])] 1 1 1 0
    ([0], [0]) rfl (by decide)
  exact ⟨h.1, h.2.2.2⟩

/-- Counterexample for C7 as stated: in the same batch the first file is
skipped and the sibling is processed into chunks, yet
`source_files_count = 2` still counts the skipped file (the claim demands
it not be counted, which would give 1 here). -/
theorem C7_source_files_count_counterexample :
    (ingest_batch [([0], [0]), ([0, 1], [5, 6])] 1 1 1).get? 0
      = some FileOutcome.skippedInsufficientPoints ∧
    (∃ ws, (ingest_batch [([0], [0]), ([0, 1], [5, 6])] 1 1 1).get? 1
      = some (FileOutcome.processed ws) ∧ ws.length = 2) ∧
    metadata_source_files_count [([0], [0]), ([0, 1], [5, 6])] = 2 ∧
    metadata_source_files_count [([0], [0]), ([0, 1], [5, 6])] ≠ 1 := by
  have hget : (ingest_batch [([0], [0]), ([0, 1], [5, 6])] 1 1 1).get? 0
      = some FileOutcome.skippedInsufficientPoints := by
    unfold ingest_batch
    rw [List.get?_map]
    rfl
  refine ⟨hget, ?_, rfl, by decide⟩
  have hmd : meanDiff [(0 : ℚ), 1] = 1 := by
    unfold meanDiff
    norm_num
  have hbget : (ingest_batch [([0], [0]), ([0, 1], [5, 6])] 1 1 1).get? 1
      = some (ingest_process_file [0, 1] [5, 6] 1 1 1) := by
    unfold ingest_batch
    rw [List.get?_map]
    rfl
  have h2 : ∃ ws, ingest_process_file [(0 : ℚ), 1] [(5 : ℚ), 6] 1 1 1
      = FileOutcome.processed ws ∧ ws.length = 2 := by
    simp only [ingest_process_file, MIN_DATA_POINTS, hmd]
    norm_num [Int.floor_one, List.range_succ]
    simp [List.filterMap_cons]
  rcases h2 with ⟨ws, hws, hlen⟩
  exact ⟨ws, by rw [hbget, hws], hlen⟩

/-! ### Claim C10 -/

/-- Claim C10: when, after `skip_rows`, the first remaining row's
time-column entry is a string that does not parse as a float,
`read_raw_csv` drops exactly that one row before validating; the
`MIN_DATA_POINTS = 2` minimum is then checked against the row count after
the drop, and on success the returned time and value arrays have equal
length (each one value per remaining row). -/
theorem C10_header_row_drop (rows : List (List Cell)) (s : CSVStructure)
    (r0 : List Cell) (rest : List (List Cell))
    (hdrop : rows.drop s.skip_rows.toNat = r0 :: rest)
    (hcell : r0.get? s.time_column.toNat = some (.str none)) :
    read_raw_csv rows s = validate_and_extract rest s ∧
    (rest.length < MIN_DATA_POINTS →
      read_raw_csv rows s = .error .insufficientDataPoints) ∧
    (∀ t v, read_raw_csv rows s = .ok (t, v) →
      t.length = v.length ∧ t.length = rest.length ∧
        MIN_DATA_POINTS ≤ t.length) := by
  have h1 : read_raw_csv rows s = validate_and_extract rest s := by
    unfold read_raw_csv
    rw [hdrop]
    simp only [List.head?_cons, Option.some_bind, hcell]
    simp [cellIsHeaderish]
  refine ⟨h1, ?_, ?_⟩
  · intro hshort
    rw [h1]
    unfold validate_and_extract
    rw [if_pos hshort]
  · intro t v hok
    rw [h1] at hok
    unfold validate_and_extract at hok
    split_ifs at hok with hshort
    rcases htc : omap (fun r => r.get? s.time_column.toNat) rest with _ | tcol <;>
      rcases hvc : omap (fun r => r.get? s.values_column.toNat) rest with _ | vcol <;>
        simp only [htc, hvc] at hok <;>
          try exact Except.noConfusion hok
    rcases htf : omap cellToFloat tcol with _ | tq <;>
      rcases hvf : omap cellToFloat vcol with _ | vq <;>
        simp only [htf, hvf] at hok <;>
          try exact Except.noConfusion hok
    simp only [Except.ok.injEq, Prod.mk.injEq] at hok
    rcases hok with ⟨ht, hv⟩
    subst ht
    subst hv
    have l1 := omap_length _ _ _ htc
    have l2 := omap_length _ _ _ hvc
    have l3 := omap_length _ _ _ htf
    have l4 := omap_length _ _ _ hvf
    refine ⟨by omega, by omega, by omega⟩

/-- Witness for C10: a CSV whose first row is a textual header (both cells
unparseable strings) followed by two numeric rows; with
`skip_rows = 0, time_column = 0, values_column = 1` the reader drops the
header row and returns the two (time, value) pairs. -/
theorem C10_header_row_drop_witness :
    read_raw_csv
      [[Cell.str none, Cell.str none],
       [Cell.num 0, Cell.num 5],
       [Cell.num 1, Cell.num 6]]
      ⟨0, 0, 1, []⟩ = .ok ([0, 1], [5, 6]) := by
  have h := C10_header_row_drop
    [[Cell.str none, Cell.str none],
     [Cell.num 0, Cell.num 5],
     [Cell.num 1, Cell.num 6]]
    ⟨0, 0, 1, []⟩
    [Cell.str none, Cell.str none]
    [[Cell.num 0, Cell.num 5], [Cell.num 1, Cell.num 6]]
    rfl rfl
  rw [h.1]
  simp [validate_and_extract, omap, cellToFloat, MIN_DATA_POINTS]

lemma filterMap_range_one {α : Type} (f : ℕ → Option α) (a0 : α)
    (h0 : f 0 = some a0) : (List.range 1).filterMap f = [a0] := by
  rw [show List.range 1 = [0] from rfl]
  simp [List.filterMap_cons, h0]

lemma filterMap_range_two {α : Type} (f : ℕ → Option α) (a0 a1 : α)
    (h0 : f 0 = some a0) (h1 : f 1 = some a1) :
    (List.range 2).filterMap f = [a0, a1] := by
  rw [show List.range 2 = [0, 1] from rfl]
  simp [List.filterMap_cons, h0, h1]

/-! ### Claim C1 -/

/-- Amended claim C1: the ingestion and inference call sites share one
out-of-bounds fill policy (`fill_value = 0.0`, `bounds_error` disabled),
and for queries inside the node time range the interpolation result does
not depend on the fill policy at all; the training-time featurization,
however, is configured with `fill_value='extrapolate'`, a different
policy, and the three call sites do not produce bit-identical waveforms. -/
theorem C1_fill_policy_in_range (nodes : List (ℚ × ℚ)) (fill : FillPolicy)
    (t : ℚ) (hlb : nodes.headI.1 ≤ t) (hub : t ≤ nodesLastTime nodes) :
    INTERPOLATION_FILL_VALUE = DB_INTERPOLATION_FILL_VALUE ∧
    TRAINING_INTERPOLATION_FILL_VALUE ≠ DB_INTERPOLATION_FILL_VALUE ∧
    interp1dEval nodes fill t = interp1dEval nodes DB_INTERPOLATION_FILL_VALUE t := by
  refine ⟨rfl, fun h => FillPolicy.noConfusion h, ?_⟩
  cases nodes with
  | nil => rfl
  | cons p0 rest =>
    simp only [List.headI] at hlb
    simp only [interp1dEval]
    rw [if_neg (not_lt.2 hlb), if_neg (not_lt.2 hub),
      if_neg (not_lt.2 hlb), if_neg (not_lt.2 hub)]

/-- Witness for C1 (amended): on the nodes `[(0,0), (1,1)]` at the
in-range point `1/2` the 'extrapolate' policy and the zero-fill policy
agree. -/
theorem C1_fill_policy_in_range_witness :
    interp1dEval [(0, 0), (1, 1)] FillPolicy.extrapolate (1/2)
      = interp1dEval [(0, 0), (1, 1)] DB_INTERPOLATION_FILL_VALUE (1/2) :=
  (C1_fill_policy_in_range [(0, 0), (1, 1)] FillPolicy.extrapolate (1/2)
    (by norm_num) (by norm_num [nodesLastTime])).2.2

/-- Counterexample for C1 as stated: on the raw series
`time = [0,1,2,3], values = [1,2,3,4]` with
`time_interval = 1, chunk_duration = 2, padding_duration = 1,
target_rate = 2`, the ingestion call site writes two unnormalized
coarse-grid chunks `[0,1,2,0,0]` and `[0,3,4,0,0]` while the inference
call site produces the single normalized fine-grid waveform
`[0, 1/4, 1/2, 3/4, 1, 1/2, 0, 0]` — not bit-identical — and the training
featurization constant is a different fill policy from the one the other
two call sites use. -/
theorem C1_bit_identical_counterexample :
    ingest_process_file [0, 1, 2, 3] [1, 2, 3, 4] 2 1 1
      = FileOutcome.processed [[0, 1, 2, 0, 0], [0, 3, 4, 0, 0]] ∧
    inference_waveforms [0, 1, 2, 3] [1, 2, 3, 4] 1 2 1 2
      = .ok [[0, 1/4, 1/2, 3/4, 1, 1/2, 0, 0]] ∧
    ([[0, 1, 2, 0, 0], [0, 3, 4, 0, 0]] : List (List ℚ))
      ≠ [[0, 1/4, 1/2, 3/4, 1, 1/2, 0, 0]] ∧
    TRAINING_INTERPOLATION_FILL_VALUE ≠ INTERPOLATION_FILL_VALUE := by
  have hnpp : ingest_num_padding_points 1 1 = 2 := by
    unfold ingest_num_padding_points
    norm_num
  have hls1 : linspace 0 1 2 false = [0, 1/2] := by
    norm_num [linspace, List.range_succ]
  have hls2 : linspace (1 + 2) (2 + 2 * 1) (2 + 1) true = [3, 7/2, 4] := by
    norm_num [linspace, List.range_succ]
  have hgrid : ingest_grid 2 1 1 = [0, 1, 2, 3, 4] := by
    unfold ingest_grid
    rw [arange_eval_pos 0 (2 + 2 * 1 + 1 / 2) 1 5 (by norm_num) (by norm_num)
      (by norm_num) (by norm_num)]
    norm_num [List.range_succ, List.filter]
  have hw1 : ingest_chunk_waveform [0, 1] [1, 2] 2 1 1 = [0, 1, 2, 0, 0] := by
    simp only [ingest_chunk_waveform, hnpp, hls1, hls2, hgrid]
    norm_num [interp1dEval, interpSegs, nodesLastTime, lerp,
      DB_INTERPOLATION_FILL_VALUE, List.zip_cons_cons, List.zip_nil_right,
      List.zip_nil_left, List.replicate, List.getLast?_cons_cons,
      List.getLast?_singleton, Option.getD, List.getLastD]
  have hw2 : ingest_chunk_waveform [2, 3] [3, 4] 2 1 1 = [0, 3, 4, 0, 0] := by
    simp only [ingest_chunk_waveform, hnpp, hls1, hls2, hgrid]
    norm_num [interp1dEval, interpSegs, nodesLastTime, lerp,
      DB_INTERPOLATION_FILL_VALUE, List.zip_cons_cons, List.zip_nil_right,
      List.zip_nil_left, List.replicate, List.getLast?_cons_cons,
      List.getLast?_singleton, Option.getD, List.getLastD]
  have hA : ingest_process_file [0, 1, 2, 3] [1, 2, 3, 4] 2 1 1
      = FileOutcome.processed [[0, 1, 2, 0, 0], [0, 3, 4, 0, 0]] := by
    have hmd4 : meanDiff [(0 : ℚ), 1, 2, 3] = 1 := by
      unfold meanDiff
      norm_num
    simp only [ingest_process_file, MIN_DATA_POINTS, hmd4]
    norm_num
    rw [show (4 : ℕ) / Int.toNat 2 = 2 from rfl]
    rw [if_neg (by decide), filterMap_range_two _ _ _ ?_ ?_]
    · rw [if_neg (by decide)]
      rw [show List.take (Int.toNat 2)
          (List.drop (0 * Int.toNat 2) [(0 : ℚ), 1, 2, 3]) = [0, 1] from rfl]
      rw [show List.take (Int.toNat 2)
          (List.drop (0 * Int.toNat 2) [(1 : ℚ), 2, 3, 4]) = [1, 2] from rfl]
      rw [hw1]
    · rw [if_neg (by decide)]
      rw [show List.take (Int.toNat 2)
          (List.drop (1 * Int.toNat 2) [(0 : ℚ), 1, 2, 3]) = [2, 3] from rfl]
      rw [show List.take (Int.toNat 2)
          (List.drop (1 * Int.toNat 2) [(1 : ℚ), 2, 3, 4]) = [3, 4] from rfl]
      rw [hw2]
  have hs1 : interpolate_raw_data [0, 1, 2, 3] [1, 2, 3, 4] 1
      = ([0, 1, 2], [1, 2, 3]) := by
    simp only [interpolate_raw_data]
    rw [show ([(0 : ℚ), 1, 2, 3].getLastD 0) = 3 from rfl,
      show [(0 : ℚ), 1, 2, 3].headI = 0 from rfl,
      show (3 : ℚ) - 0 = 3 by norm_num]
    rw [arange_eval_pos 0 3 1 3 (by norm_num) (by norm_num) (by norm_num)
      (by norm_num)]
    norm_num [List.range_succ, interp1dEval, interpSegs, nodesLastTime, lerp,
      INTERPOLATION_FILL_VALUE, DB_INTERPOLATION_FILL_VALUE,
      List.zip_cons_cons, List.zip_nil_right, List.zip_nil_left,
      List.getLast?_cons_cons, List.getLast?_singleton, Option.getD,
      List.getLastD]
  have hsplit : split_into_chunks [0, 1, 2] [1, 2, 3] 2 1 1
      = .ok [([0, 1, 2, 3, 4], [0, 1, 2, 0, 0])] := by
    have hmd3 : meanDiff [(0 : ℚ), 1, 2] = 1 := by
      unfold meanDiff
      norm_num
    have hsp : split_start_padding_time 1 1 = [0] := by
      unfold split_start_padding_time
      rw [arange_eval_pos 0 1 1 1 (by norm_num) (by norm_num) (by norm_num)
        (by norm_num)]
      simp [List.range_succ]
    have hep : split_end_padding_time 2 1 1 = [3, 4] := by
      unfold split_end_padding_time
      rw [arange_eval_pos (1 + 2) (2 + 2 * 1 + 1) 1 2 (by norm_num) (by norm_num)
        (by norm_num) (by norm_num)]
      simp [List.range_succ]
      norm_num
    simp only [split_into_chunks, hmd3]
    norm_num
    rw [show (3 : ℕ) / Int.toNat 2 = 1 from rfl]
    rw [if_neg (by decide), filterMap_range_one _ _ ?_]
    rw [if_neg (by decide)]
    rw [show List.take (Int.toNat 2)
        (List.drop (0 * Int.toNat 2) [(0 : ℚ), 1, 2]) = [0, 1] from rfl]
    rw [show List.take (Int.toNat 2)
        (List.drop (0 * Int.toNat 2) [(1 : ℚ), 2, 3]) = [1, 2] from rfl]
    simp only [split_build_chunk, hsp, hep]
    norm_num [List.replicate]
  have hpc : process_chunks [([0, 1, 2, 3, 4], [0, 1, 2, 0, 0])] 2 1 2
      = [[0, 1/4, 1/2, 3/4, 1, 1/2, 0, 0]] := by
    have hg2 : arange 0 (2 + 2 * 1) (1 / 2)
        = [0, 1/2, 1, 3/2, 2, 5/2, 3, 7/2] := by
      rw [arange_eval_pos 0 (2 + 2 * 1) (1 / 2) 8 (by norm_num) (by norm_num)
        (by norm_num) (by norm_num)]
      norm_num [List.range_succ]
    simp only [process_chunks, interpolate_chunk_to_1600hz, hg2,
      List.map_cons, List.map_nil]
    norm_num [interp1dEval, interpSegs, nodesLastTime, lerp,
      INTERPOLATION_FILL_VALUE, DB_INTERPOLATION_FILL_VALUE, normalize_data,
      maxAbs, List.zip_cons_cons, List.zip_nil_right, List.zip_nil_left,
      List.getLast?_cons_cons, List.getLast?_singleton, Option.getD,
      List.getLastD, abs_of_nonneg, sup_eq_max, max_def,
      show Int.toNat 8 = 8 from rfl]
  have hB : inference_waveforms [0, 1, 2, 3] [1, 2, 3, 4] 1 2 1 2
      = .ok [[0, 1/4, 1/2, 3/4, 1, 1/2, 0, 0]] := by
    simp only [inference_waveforms, hs1]
    rw [hsplit]
    simp only [Except.map]
    rw [hpc]
  refine ⟨hA, hB, ?_, fun h => FillPolicy.noConfusion h⟩
  intro h
  have hlen := congrArg List.length h
  simp at hlen
/-! ### Interpolation over runs of zero anchors (infrastructure for the
padding-flatness claim) -/

lemma lerp_zero (t0 t1 t : ℚ) : lerp t0 0 t1 0 t = 0 := by
  simp [lerp]

lemma lerp_right_endpoint (t0 v0 t1 v1 : ℚ) (h : t0 ≠ t1) :
    lerp t0 v0 t1 v1 t1 = v1 := by
  unfold lerp
  rw [mul_div_assoc, div_self (sub_ne_zero.2 (Ne.symm h))]
  ring

/-- Walking the interpolant inside a run of zero-valued anchors yields 0:
`zs` is the nonempty run, `t` lies between its first and last anchor time,
and `t` does not pass the first node of `post`. -/
lemma interpSegs_zero_run (zs post : List (ℚ × ℚ)) (t : ℚ)
    (hz : ∀ p ∈ zs, p.2 = 0) (hne : zs ≠ [])
    (hlb : zs.headI.1 ≤ t) (hub : t ≤ (zs.getLastD (0, 0)).1)
    (hbd : ∀ q ∈ post.head?, t ≤ q.1) :
    interpSegs (zs ++ post) t = 0 := by
  induction zs with
  | nil => exact absurd rfl hne
  | cons z0 ztail ih =>
    cases ztail with
    | nil =>
      have ht : t = z0.1 := by
        refine le_antisymm ?_ (by simpa using hlb)
        simpa [List.getLastD_cons] using hub
      cases post with
      | nil =>
        simpa [interpSegs] using hz z0 (by simp)
      | cons q qs =>
        have hq : t ≤ q.1 := hbd q (by simp)
        simp only [List.cons_append, List.nil_append, interpSegs]
        rw [if_pos hq, hz z0 (by simp), ht]
        simp [lerp]
    | cons z1 ztail2 =>
      simp only [List.cons_append, interpSegs]
      by_cases hcase : t ≤ z1.1
      · rw [if_pos hcase, hz z0 (by simp), hz z1 (by simp), lerp_zero]
      · rw [if_neg hcase]
        refine ih (fun p hp => hz p (List.mem_cons_of_mem _ hp)) (by simp)
          (le_of_lt (lt_of_not_le hcase)) ?_
        have h2 : (z0 :: z1 :: ztail2).getLastD (0, 0)
            = (z1 :: ztail2).getLastD (0, 0) := by
          rw [List.getLastD_cons, List.getLastD_cons, List.getLastD_cons]
        rw [← h2]
        exact hub

/-- Same as `interpSegs_zero_run`, with a prefix of nodes strictly before
`t` that the walk skips. -/
lemma interpSegs_skip_run (pre zs post : List (ℚ × ℚ)) (t : ℚ)
    (hpre : ∀ p ∈ pre, p.1 < t)
    (hz : ∀ p ∈ zs, p.2 = 0) (hne : zs ≠ [])
    (hlb : zs.headI.1 ≤ t) (hub : t ≤ (zs.getLastD (0, 0)).1)
    (hbd : ∀ q ∈ post.head?, t ≤ q.1) :
    interpSegs (pre ++ zs ++ post) t = 0 := by
  induction pre with
  | nil => simpa using interpSegs_zero_run zs post t hz hne hlb hub hbd
  | cons p0 ptail ih =>
    cases ptail with
    | nil =>
      cases zs with
      | nil => exact absurd rfl hne
      | cons zh ztail =>
        simp only [List.cons_append, List.nil_append, interpSegs]
        by_cases hc : t ≤ zh.1
        · have ht : t = zh.1 := le_antisymm hc (by simpa using hlb)
          rw [if_pos hc, hz zh (by simp), ht]
          exact lerp_right_endpoint _ _ _ _
            (ne_of_lt (ht ▸ hpre p0 (by simp)))
        · rw [if_neg hc]
          have := interpSegs_zero_run (zh :: ztail) post t hz (by simp)
            (by simpa using hlb) hub hbd
          simpa using this
    | cons p1 ptail2 =>
      have hp1 : p1.1 < t := hpre p1 (by simp)
      simp only [List.cons_append, interpSegs]
      rw [if_neg (not_le.2 hp1)]
      have := ih (fun p hp => hpre p (List.mem_cons_of_mem _ hp))
      simpa using this

/-- For an in-range query the fill policy is irrelevant and evaluation is
the segment walk. -/
lemma interp1dEval_in_range (nodes : List (ℚ × ℚ)) (fill : FillPolicy)
    (t : ℚ) (hlb : nodes.headI.1 ≤ t) (hub : t ≤ nodesLastTime nodes) :
    interp1dEval nodes fill t = interpSegs nodes t := by
  cases nodes with
  | nil => cases fill <;> rfl
  | cons p0 rest =>
    simp only [List.headI] at hlb
    simp only [interp1dEval]
    rw [if_neg (not_lt.2 hlb), if_neg (not_lt.2 hub)]

lemma head_le_getLastD (l : List ℚ) (a : ℚ)
    (hc : List.Chain' (· < ·) (a :: l)) : a ≤ l.getLastD a := by
  induction l generalizing a with
  | nil => exact le_refl a
  | cons b tail ih =>
    have hab : a < b := (List.chain'_cons.1 hc).1
    rw [List.getLastD_cons]
    exact le_trans (le_of_lt hab) (ih b (List.chain'_cons.1 hc).2)

lemma mem_le_getLastD (l : List ℚ) (d : ℚ) (hc : List.Chain' (· < ·) l)
    (x : ℚ) (hx : x ∈ l) : x ≤ l.getLastD d := by
  induction l generalizing d with
  | nil => simp at hx
  | cons a tail ih =>
    rw [List.getLastD_cons]
    rcases List.mem_cons.1 hx with rfl | hmem
    · exact head_le_getLastD tail x hc
    · exact ih a hc.tail hmem

lemma zip_replicate_zero (l : List ℚ) :
    l.zip (List.replicate l.length (0 : ℚ)) = l.map (fun x => (x, 0)) := by
  induction l with
  | nil => rfl
  | cons a tail ih => simp [List.replicate_succ, ih]

/-! ### Structural facts about `arange` grids -/

lemma arange_chain (start stop step : ℚ) (h1 : 0 < step) :
    List.Chain' (· < ·) (arange start stop step) := by
  unfold arange
  rw [if_pos h1]
  refine List.Pairwise.chain' ?_
  refine List.Pairwise.map _ ?_ (List.pairwise_lt_range _)
  intro a b hab
  have hc : (a : ℚ) < b := by exact_mod_cast hab
  exact add_lt_add_left (mul_lt_mul_of_pos_right hc h1) start

lemma arange_toNat_pos (start stop step : ℚ) (h1 : 0 < step) (h2 : start < stop) :
    0 < Int.toNat ⌈(stop - start) / step⌉ := by
  have hc : 0 < ⌈(stop - start) / step⌉ :=
    Int.ceil_pos.2 (div_pos (by linarith) h1)
  omega

lemma arange_ne_nil (start stop step : ℚ) (h1 : 0 < step) (h2 : start < stop) :
    arange start stop step ≠ [] := by
  have hn := arange_toNat_pos start stop step h1 h2
  unfold arange
  rw [if_pos h1]
  intro hnil
  have := congrArg List.length hnil
  simp at this
  omega

lemma arange_headI (start stop step : ℚ) (h1 : 0 < step) (h2 : start < stop) :
    (arange start stop step).headI = start := by
  have hn := arange_toNat_pos start stop step h1 h2
  unfold arange
  rw [if_pos h1]
  obtain ⟨m, hm⟩ : ∃ m, Int.toNat ⌈(stop - start) / step⌉ = m + 1 :=
    ⟨Int.toNat ⌈(stop - start) / step⌉ - 1, by omega⟩
  rw [hm, List.range_succ_eq_map]
  simp

lemma map_range_getLastD (f : ℕ → ℚ) (n : ℕ) (hn : 0 < n) (d : ℚ) :
    ((List.range n).map f).getLastD d = f (n - 1) := by
  obtain ⟨m, rfl⟩ : ∃ m, n = m + 1 := ⟨n - 1, by omega⟩
  rw [List.range_succ, List.map_append]
  simp [List.getLastD_concat]

lemma arange_getLastD (start stop step : ℚ) (h1 : 0 < step) (h2 : start < stop)
    (d : ℚ) :
    (arange start stop step).getLastD d
      = start + ((Int.toNat ⌈(stop - start) / step⌉ : ℚ) - 1) * step := by
  have hn := arange_toNat_pos start stop step h1 h2
  unfold arange
  rw [if_pos h1, map_range_getLastD _ _ hn]
  congr 2
  rw [Nat.cast_sub (by omega)]
  simp

lemma arange_last_bounds (start stop step : ℚ) (h1 : 0 < step)
    (h2 : start < stop) :
    start + ((Int.toNat ⌈(stop - start) / step⌉ : ℚ) - 1) * step < stop ∧
    stop - step ≤ start + ((Int.toNat ⌈(stop - start) / step⌉ : ℚ) - 1) * step := by
  have hx : 0 < (stop - start) / step := div_pos (by linarith) h1
  have hceil : 0 < ⌈(stop - start) / step⌉ := Int.ceil_pos.2 hx
  have hcast : ((Int.toNat ⌈(stop - start) / step⌉ : ℤ) : ℚ)
      = ((⌈(stop - start) / step⌉ : ℤ) : ℚ) := by
    exact_mod_cast congrArg (fun z : ℤ => (z : ℚ))
      (Int.toNat_of_nonneg (le_of_lt hceil))
  have hmul : (stop - start) / step * step = stop - start :=
    div_mul_cancel₀ _ (ne_of_gt h1)
  constructor
  · have h3 : ((⌈(stop - start) / step⌉ : ℤ) : ℚ) - 1 < (stop - start) / step := by
      have h4 := Int.ceil_lt_add_one ((stop - start) / step)
      push_cast at h4 ⊢
      linarith
    have h5 : (((Int.toNat ⌈(stop - start) / step⌉ : ℤ) : ℚ) - 1) * step
        < (stop - start) / step * step := by
      rw [hcast]
      exact mul_lt_mul_of_pos_right h3 h1
    rw [hmul] at h5
    push_cast at h5 ⊢
    linarith
  · have h4 : (stop - start) / step ≤ ((⌈(stop - start) / step⌉ : ℤ) : ℚ) :=
      Int.le_ceil _
    have h5 : (stop - start) / step * step
        ≤ ((Int.toNat ⌈(stop - start) / step⌉ : ℤ) : ℚ) * step := by
      rw [hcast]
      exact mul_le_mul_of_nonneg_right h4 (le_of_lt h1)
    rw [hmul] at h5
    push_cast at h5 ⊢
    linarith

lemma arange_get?_spec (start stop step : ℚ) (h1 : 0 < step) (k : ℕ) (t : ℚ)
    (h : (arange start stop step).get? k = some t) :
    t = start + (k : ℚ) * step ∧ start ≤ t ∧ t < stop := by
  unfold arange at h
  rw [if_pos h1, List.get?_map] at h
  cases hk : (List.range (Int.toNat ⌈(stop - start) / step⌉)).get? k with
  | none => rw [hk] at h; simp at h
  | some m =>
    rw [hk] at h
    simp only [Option.map_some', Option.some.injEq] at h
    rcases List.get?_eq_some.1 hk with ⟨hklt, hget⟩
    rw [List.get_range] at hget
    subst hget
    rw [List.length_range] at hklt
    have h2 : start < stop := by
      have hc : 0 < ⌈(stop - start) / step⌉ := by omega
      have hx : 0 < (stop - start) / step := by
        by_contra hx
        have h5 : ⌈(stop - start) / step⌉ ≤ 0 := by
          refine Int.ceil_le.2 ?_
          push_cast
          linarith [le_of_not_lt hx]
        omega
      nlinarith [mul_pos hx h1, div_mul_cancel₀ (stop - start) (ne_of_gt h1)]
    refine ⟨h.symm, ?_, ?_⟩
    · rw [← h]
      have h6 : 0 ≤ (k : ℚ) * step :=
        mul_nonneg (by positivity) (le_of_lt h1)
      linarith
    · rw [← h]
      have hmn : (k : ℚ) ≤ (Int.toNat ⌈(stop - start) / step⌉ : ℚ) - 1 := by
        have h7 : (k : ℚ) + 1 ≤ (Int.toNat ⌈(stop - start) / step⌉ : ℚ) := by
          exact_mod_cast Nat.succ_le_of_lt hklt
        linarith
      have hlast := (arange_last_bounds start stop step h1 h2).1
      have h8 : (k : ℚ) * step ≤ ((Int.toNat ⌈(stop - start) / step⌉ : ℚ) - 1) * step :=
        mul_le_mul_of_nonneg_right hmn (le_of_lt h1)
      linarith

lemma arange_mem_le_getLastD (start stop step : ℚ) (h1 : 0 < step) (x : ℚ)
    (hx : x ∈ arange start stop step) (d : ℚ) :
    x ≤ (arange start stop step).getLastD d :=
  mem_le_getLastD _ d (arange_chain start stop step h1) x hx

/-! ### More bookkeeping lemmas for padded chunks -/

lemma getLastD_append_right {α : Type} (l1 l2 : List α) (hne : l2 ≠ []) (d : α) :
    (l1 ++ l2).getLastD d = l2.getLastD d := by
  rw [List.getLastD_eq_getLast?, List.getLastD_eq_getLast?,
    List.getLast?_append_of_ne_nil _ hne]

lemma headI_append_left {α : Type} [Inhabited α] (l1 l2 : List α)
    (hne : l1 ≠ []) : (l1 ++ l2).headI = l1.headI := by
  cases l1 with
  | nil => exact absurd rfl hne
  | cons a t => rfl

lemma map_pair_headI (l : List ℚ) (hne : l ≠ []) :
    (l.map (fun x => (x, (0 : ℚ)))).headI = (l.headI, 0) := by
  cases l with
  | nil => exact absurd rfl hne
  | cons a t => rfl

lemma map_pair_getLastD (l : List ℚ) (hne : l ≠ []) (d : ℚ) :
    (l.map (fun x => (x, (0 : ℚ)))).getLastD (0, 0) = (l.getLastD d, 0) := by
  rw [List.getLastD_eq_getLast?, List.getLastD_eq_getLast?, List.getLast?_map]
  cases hl : l.getLast? with
  | none => exact absurd (List.getLast?_eq_none_iff.1 hl) hne
  | some a => rfl

lemma map_getLastD (f : ℚ → ℚ) (l : List ℚ) (hne : l ≠ []) (d d2 : ℚ) :
    (l.map f).getLastD d = f (l.getLastD d2) := by
  rw [List.getLastD_eq_getLast?, List.getLastD_eq_getLast?, List.getLast?_map]
  cases hl : l.getLast? with
  | none => exact absurd (List.getLast?_eq_none_iff.1 hl) hne
  | some a => rfl

/-! ### Claim C3 -/

/-- Amended claim C3: for every padded chunk built by the splitter from a
non-degenerate data region, after Stage-2 resampling every output sample
whose time lies in `[0, padding_duration - time_interval]` or in
`[padding_duration + chunk_duration, total_duration)` is exactly 0.  (In
the remaining sub-band `(padding_duration - time_interval,
padding_duration)` of the claimed region `[0, padding_duration)` the
interpolant ramps from the last zero anchor to the first data value and
need not vanish.) -/
theorem C3_padding_flatness (tc vc : List ℚ) (cd pd ti rate : ℚ)
    (hlen : tc.length = vc.length) (htc : tc ≠ [])
    (hsort : List.Chain' (· < ·) tc)
    (hspan : tc.getLastD 0 - tc.headI < cd)
    (hti : 0 < ti) (hpd : 0 < pd) (hrate : 0 < rate)
    (k : ℕ) (t v : ℚ)
    (ht : (interpolate_chunk_to_1600hz (split_build_chunk tc vc cd pd ti).1
        (split_build_chunk tc vc cd pd ti).2 cd pd rate).1.get? k = some t)
    (hv : (interpolate_chunk_to_1600hz (split_build_chunk tc vc cd pd ti).1
        (split_build_chunk tc vc cd pd ti).2 cd pd rate).2.get? k = some v)
    (hreg : t ≤ pd - ti ∨ pd + cd ≤ t) :
    v = 0 := by
  -- the data region is non-degenerate and spans less than one chunk
  have hspan0 : tc.headI ≤ tc.getLastD 0 := by
    cases tc with
    | nil => exact absurd rfl htc
    | cons a tail =>
      rw [List.getLastD_cons]
      exact head_le_getLastD tail a hsort
  have hcd : 0 < cd := lt_of_le_of_lt (by linarith) hspan
  -- grid point facts
  have hstep : 0 < 1 / rate := by positivity
  simp only [interpolate_chunk_to_1600hz] at ht hv
  have htspec := arange_get?_spec 0 (cd + 2 * pd) (1 / rate) hstep k t ht
  have ht0 : 0 ≤ t := htspec.2.1
  have httop : t < cd + 2 * pd := htspec.2.2
  -- the value is the interpolant at t
  rw [List.get?_map, ht] at hv
  simp only [Option.map_some', Option.some.injEq] at hv
  -- start padding facts
  have hspt_ne : split_start_padding_time pd ti ≠ [] := by
    unfold split_start_padding_time
    exact arange_ne_nil 0 pd ti hti hpd
  have hspt_head : (split_start_padding_time pd ti).headI = 0 := by
    unfold split_start_padding_time
    exact arange_headI 0 pd ti hti hpd
  have hspt_chain : List.Chain' (· < ·) (split_start_padding_time pd ti) := by
    unfold split_start_padding_time
    exact arange_chain 0 pd ti hti
  have hspt_last_lt : (split_start_padding_time pd ti).getLastD 0 < pd := by
    unfold split_start_padding_time
    rw [arange_getLastD 0 pd ti hti hpd 0]
    linarith [(arange_last_bounds 0 pd ti hti hpd).1]
  have hspt_last_ge : pd - ti ≤ (split_start_padding_time pd ti).getLastD 0 := by
    unfold split_start_padding_time
    rw [arange_getLastD 0 pd ti hti hpd 0]
    linarith [(arange_last_bounds 0 pd ti hti hpd).2]
  -- end padding facts
  have hept_lt : pd + cd < cd + 2 * pd + ti := by linarith
  have hept_ne : split_end_padding_time cd pd ti ≠ [] := by
    unfold split_end_padding_time
    exact arange_ne_nil _ _ ti hti hept_lt
  have hept_head : (split_end_padding_time cd pd ti).headI = pd + cd := by
    unfold split_end_padding_time
    exact arange_headI _ _ ti hti hept_lt
  have hept_last_ge : cd + 2 * pd ≤ (split_end_padding_time cd pd ti).getLastD 0 := by
    unfold split_end_padding_time
    rw [arange_getLastD (pd + cd) (cd + 2 * pd + ti) ti hti hept_lt 0]
    linarith [(arange_last_bounds (pd + cd) (cd + 2 * pd + ti) ti hti hept_lt).2]
  -- data region facts
  have hvc_ne : vc ≠ [] := by
    intro hnil
    rw [hnil] at hlen
    simp only [List.length_nil, List.length_eq_zero] at hlen
    exact htc hlen
  have hdata_ne : (tc.map (· - tc.headI)).map (· + pd) ≠ [] := by
    simp [htc]
  have hdata_head : ((tc.map (· - tc.headI)).map (· + pd)).headI = pd := by
    cases tc with
    | nil => exact absurd rfl htc
    | cons a tail => simp
  have hdata_chain : List.Chain' (· < ·) ((tc.map (· - tc.headI)).map (· + pd)) := by
    exact List.chain'_map_of_chain' (fun x => x + pd)
      (fun a b (hab : a < b) => by
        show a + pd < b + pd
        linarith)
      (List.chain'_map_of_chain' (fun x => x - tc.headI)
        (fun a b (hab : a < b) => by
          show a - tc.headI < b - tc.headI
          linarith) hsort)
  have hdata_last_lt : ((tc.map (· - tc.headI)).map (· + pd)).getLastD 0
      < pd + cd := by
    rw [map_getLastD _ _ (by simp [htc]) 0 0, map_getLastD _ _ htc 0 0]
    linarith
  have hdata_len : ((tc.map (· - tc.headI)).map (· + pd)).length = vc.length := by
    simp [hlen]
  -- node list structure
  have hnodes : ((split_build_chunk tc vc cd pd ti).1.zip
        (split_build_chunk tc vc cd pd ti).2)
      = ((split_start_padding_time pd ti).map (fun x => (x, (0 : ℚ)))
          ++ ((tc.map (· - tc.headI)).map (· + pd)).zip vc)
        ++ (split_end_padding_time cd pd ti).map (fun x => (x, (0 : ℚ))) := by
    simp only [split_build_chunk]
    rw [List.zip_append (by simp [hlen])]
    rw [List.zip_append (by rw [List.length_replicate])]
    rw [zip_replicate_zero, zip_replicate_zero]
  have hsptP_ne : (split_start_padding_time pd ti).map (fun x => (x, (0 : ℚ)))
      ≠ [] := by
    simp [hspt_ne]
  have heptP_ne : (split_end_padding_time cd pd ti).map (fun x => (x, (0 : ℚ)))
      ≠ [] := by
    simp [hept_ne]
  have hdp_ne : ((tc.map (· - tc.headI)).map (· + pd)).zip vc ≠ [] := by
    cases hdt : (tc.map (· - tc.headI)).map (· + pd) with
    | nil => exact absurd hdt hdata_ne
    | cons a dtail =>
      cases hvt : vc with
      | nil => exact absurd hvt hvc_ne
      | cons b vtail => simp
  -- evaluation is in range: rewrite to the segment walk
  have hnodes_head : ((split_build_chunk tc vc cd pd ti).1.zip
      (split_build_chunk tc vc cd pd ti).2).headI.1 ≤ t := by
    rw [hnodes, headI_append_left _ _ (by
        intro hnil
        exact hsptP_ne (List.append_eq_nil.1 hnil).1),
      headI_append_left _ _ hsptP_ne, map_pair_headI _ hspt_ne, hspt_head]
    exact ht0
  have hnodes_last : t ≤ nodesLastTime ((split_build_chunk tc vc cd pd ti).1.zip
      (split_build_chunk tc vc cd pd ti).2) := by
    unfold nodesLastTime
    rw [hnodes, getLastD_append_right _ _ heptP_ne _,
      map_pair_getLastD _ hept_ne 0]
    exact le_trans (le_of_lt httop) hept_last_ge
  rw [← hv, interp1dEval_in_range _ _ _ hnodes_head hnodes_last, hnodes]
  rcases hreg with hA | hB
  · -- t inside the start padding anchors
    rw [List.append_assoc]
    refine interpSegs_zero_run _ _ t ?_ hsptP_ne ?_ ?_ ?_
    · intro p hp
      rcases List.mem_map.1 hp with ⟨x, _, rfl⟩
      rfl
    · rw [map_pair_headI _ hspt_ne, hspt_head]
      exact ht0
    · rw [map_pair_getLastD _ hspt_ne 0]
      exact le_trans hA hspt_last_ge
    · intro q hq
      rw [List.head?_append_of_ne_nil _ hdp_ne] at hq
      have hqhead : q.1 = pd := by
        cases hdt : (tc.map (· - tc.headI)).map (· + pd) with
        | nil => exact absurd hdt hdata_ne
        | cons a dtail =>
          cases hvt : vc with
          | nil => exact absurd hvt hvc_ne
          | cons b vtail =>
            rw [hdt, hvt] at hq
            simp only [List.zip_cons_cons, List.head?_cons, Option.mem_def,
              Option.some.injEq] at hq
            rw [← hq]
            have ha : ((tc.map (· - tc.headI)).map (· + pd)).headI = a := by
              rw [hdt]
              rfl
            rw [show ((a, b) : ℚ × ℚ).1 = a from rfl, ← ha, hdata_head]
      rw [hqhead]
      linarith
  · -- t inside the end padding anchors
    rw [show ((split_start_padding_time pd ti).map (fun x => (x, (0 : ℚ)))
            ++ ((tc.map (· - tc.headI)).map (· + pd)).zip vc)
          ++ (split_end_padding_time cd pd ti).map (fun x => (x, (0 : ℚ)))
        = ((split_start_padding_time pd ti).map (fun x => (x, (0 : ℚ)))
            ++ ((tc.map (· - tc.headI)).map (· + pd)).zip vc)
          ++ (split_end_padding_time cd pd ti).map (fun x => (x, (0 : ℚ)))
          ++ [] by rw [List.append_nil]]
    refine interpSegs_skip_run _ _ _ t ?_ ?_ heptP_ne ?_ ?_ ?_
    · intro p hp
      rcases List.mem_append.1 hp with hps | hpd2
      · rcases List.mem_map.1 hps with ⟨x, hx, rfl⟩
        have hxle : x ≤ (split_start_padding_time pd ti).getLastD 0 :=
          mem_le_getLastD _ _ hspt_chain x hx
        show x < t
        linarith
      · obtain ⟨p1, p2⟩ := p
        have hp1 : p1 ∈ (tc.map (· - tc.headI)).map (· + pd) :=
          (List.mem_zip hpd2).1
        have hle : p1 ≤ ((tc.map (· - tc.headI)).map (· + pd)).getLastD 0 :=
          mem_le_getLastD _ _ hdata_chain p1 hp1
        show p1 < t
        linarith
    · intro p hp
      rcases List.mem_map.1 hp with ⟨x, _, rfl⟩
      rfl
    · rw [map_pair_headI _ hept_ne, hept_head]
      exact hB
    · rw [map_pair_getLastD _ hept_ne 0]
      exact le_trans (le_of_lt httop) hept_last_ge
    · intro q hq
      simp at hq
/-- Witness for C3 (amended): for the data window `[0, 1]` with values
`[5, 5]`, `chunk_duration = 2`, `padding_duration = 2`,
`time_interval = 1`, `target_rate = 2`, the Stage-2 sample at grid index 9
(time `9/2`, inside the end padding region) is exactly 0. -/
theorem C3_padding_flatness_witness :
    (interpolate_chunk_to_1600hz (split_build_chunk [0, 1] [5, 5] 2 2 1).1
      (split_build_chunk [0, 1] [5, 5] 2 2 1).2 2 2 2).2.get? 9 = some 0 := by
  have hget : (arange 0 (2 + 2 * 2) (1 / 2)).get? 9 = some (9 / 2) := by
    rw [arange_eval_pos 0 (2 + 2 * 2) (1 / 2) 12 (by norm_num) (by norm_num)
      (by norm_num) (by norm_num)]
    rw [List.get?_map, List.get?_range (by norm_num)]
    norm_num
  have ht : (interpolate_chunk_to_1600hz (split_build_chunk [0, 1] [5, 5] 2 2 1).1
      (split_build_chunk [0, 1] [5, 5] 2 2 1).2 2 2 2).1.get? 9 = some (9 / 2) := by
    simp only [interpolate_chunk_to_1600hz]
    exact hget
  have hv : (interpolate_chunk_to_1600hz (split_build_chunk [0, 1] [5, 5] 2 2 1).1
      (split_build_chunk [0, 1] [5, 5] 2 2 1).2 2 2 2).2.get? 9
      = some (interp1dEval
          ((split_build_chunk [0, 1] [5, 5] 2 2 1).1.zip
            (split_build_chunk [0, 1] [5, 5] 2 2 1).2)
          INTERPOLATION_FILL_VALUE (9 / 2)) := by
    simp only [interpolate_chunk_to_1600hz]
    rw [List.get?_map, hget]
    rfl
  have hz := C3_padding_flatness [0, 1] [5, 5] 2 2 1 2 rfl (by simp)
    (by norm_num [List.chain'_cons])
    (by rw [show ([(0 : ℚ), 1].getLastD 0) = 1 from rfl,
        show [(0 : ℚ), 1].headI = 0 from rfl]; norm_num)
    (by norm_num) (by norm_num) (by norm_num) 9 (9 / 2)
    (interp1dEval
      ((split_build_chunk [0, 1] [5, 5] 2 2 1).1.zip
        (split_build_chunk [0, 1] [5, 5] 2 2 1).2)
      INTERPOLATION_FILL_VALUE (9 / 2)) ht hv (Or.inr (by norm_num))
  rw [hv, hz]

/-- Counterexample for C3 as stated: with `padding_duration = 2`,
`time_interval = 1`, `chunk_duration = 2`, `target_rate = 2`, the padded
chunks produced from the series `[0,1,2,3]` with constant value 5 contain
the Stage-2 sample at time `3/2 ∈ [0, padding_duration)` whose value is
`5/2 ≠ 0`: the sub-band between the last zero anchor and the data start
ramps up to the first data value instead of staying flat. -/
theorem C3_ramp_counterexample :
    split_into_chunks [0, 1, 2, 3] [5, 5, 5, 5] 2 2 1
      = .ok [([0, 1, 2, 3, 4, 5, 6], [0, 0, 5, 5, 0, 0, 0]),
             ([0, 1, 2, 3, 4, 5, 6], [0, 0, 5, 5, 0, 0, 0])] ∧
    (interpolate_chunk_to_1600hz [0, 1, 2, 3, 4, 5, 6] [0, 0, 5, 5, 0, 0, 0]
        2 2 2).1.get? 3 = some (3 / 2) ∧
    ((0 : ℚ) ≤ 3 / 2 ∧ (3 / 2 : ℚ) < 2) ∧
    (interpolate_chunk_to_1600hz [0, 1, 2, 3, 4, 5, 6] [0, 0, 5, 5, 0, 0, 0]
        2 2 2).2.get? 3 = some (5 / 2) ∧
    (5 / 2 : ℚ) ≠ 0 := by
  have hmd4 : meanDiff [(0 : ℚ), 1, 2, 3] = 1 := by
    unfold meanDiff
    norm_num
  have hsp : split_start_padding_time 2 1 = [0, 1] := by
    unfold split_start_padding_time
    rw [arange_eval_pos 0 2 1 2 (by norm_num) (by norm_num) (by norm_num)
      (by norm_num)]
    norm_num [List.range_succ]
  have hep : split_end_padding_time 2 2 1 = [4, 5, 6] := by
    unfold split_end_padding_time
    rw [arange_eval_pos (2 + 2) (2 + 2 * 2 + 1) 1 3 (by norm_num) (by norm_num)
      (by norm_num) (by norm_num)]
    norm_num [List.range_succ]
  have hsplit : split_into_chunks [0, 1, 2, 3] [5, 5, 5, 5] 2 2 1
      = .ok [([0, 1, 2, 3, 4, 5, 6], [0, 0, 5, 5, 0, 0, 0]),
             ([0, 1, 2, 3, 4, 5, 6], [0, 0, 5, 5, 0, 0, 0])] := by
    simp only [split_into_chunks, hmd4]
    norm_num
    rw [show (4 : ℕ) / Int.toNat 2 = 2 from rfl]
    rw [if_neg (by decide), filterMap_range_two _ _ _ ?_ ?_]
    · rw [if_neg (by decide)]
      rw [show List.take (Int.toNat 2)
          (List.drop (0 * Int.toNat 2) [(0 : ℚ), 1, 2, 3]) = [0, 1] from rfl]
      rw [show List.take (Int.toNat 2)
          (List.drop (0 * Int.toNat 2) [(5 : ℚ), 5, 5, 5]) = [5, 5] from rfl]
      simp only [split_build_chunk, hsp, hep]
      norm_num [List.replicate]
    · rw [if_neg (by decide)]
      rw [show List.take (Int.toNat 2)
          (List.drop (1 * Int.toNat 2) [(0 : ℚ), 1, 2, 3]) = [2, 3] from rfl]
      rw [show List.take (Int.toNat 2)
          (List.drop (1 * Int.toNat 2) [(5 : ℚ), 5, 5, 5]) = [5, 5] from rfl]
      simp only [split_build_chunk, hsp, hep]
      norm_num [List.replicate]
  have hget : (arange 0 (2 + 2 * 2) (1 / 2)).get? 3 = some (3 / 2) := by
    rw [arange_eval_pos 0 (2 + 2 * 2) (1 / 2) 12 (by norm_num) (by norm_num)
      (by norm_num) (by norm_num)]
    rw [List.get?_map, List.get?_range (by norm_num)]
    norm_num
  refine ⟨hsplit, ?_, by norm_num, ?_, by norm_num⟩
  · simp only [interpolate_chunk_to_1600hz]
    exact hget
  · simp only [interpolate_chunk_to_1600hz]
    rw [List.get?_map, hget]
    norm_num [interp1dEval, interpSegs, nodesLastTime, lerp,
      INTERPOLATION_FILL_VALUE, DB_INTERPOLATION_FILL_VALUE,
      List.zip_cons_cons, List.zip_nil_right, List.zip_nil_left,
      List.getLast?_cons_cons, List.getLast?_singleton, Option.getD,
      List.getLastD]

end Capstone
